import Mathlib

/-!
Verification of the friscy RV64GC → WebAssembly binary translator.

This file shallowly embeds the translator's source (src/aot/src/{disasm,cfg,
translate,wasm_builder}.rs) into Lean and proves the claims of the
specification against it.  Machine integers are modelled as natural-number
bit patterns with explicit reductions modulo 2^32 / 2^64 where the Rust
code performs wrapping casts or arithmetic.
-/

set_option maxRecDepth 10000

namespace Friscy

/-- 2^32, the modulus of `u32`/`i32` bit patterns. -/
def M32 : Nat := 4294967296

/-- 2^64, the modulus of `u64`/`i64` bit patterns. -/
def M64 : Nat := 18446744073709551616

/-- Truncate to a 32-bit pattern (Rust `as u32`/`as i32` on wider values). -/
def wrap32 (n : Nat) : Nat := n % M32

/-- Truncate to a 64-bit pattern (Rust `as u64`/`as i64` on wider values). -/
def wrap64 (n : Nat) : Nat := n % M64

/-- Signed reading of a 32-bit pattern (Rust `i32`). -/
def toI32 (x : Nat) : Int := if x < 2147483648 then (x : Int) else (x : Int) - (M32 : Int)

/-- Signed reading of a 64-bit pattern (Rust `i64`). -/
def toI64 (x : Nat) : Int := if x < 9223372036854775808 then (x : Int) else (x : Int) - (M64 : Int)

/-- 64-bit pattern of a signed integer (Rust `as i64` of a mathematical value). -/
def i64pat (i : Int) : Nat := (i % (M64 : Int)).toNat

/-- 32-bit pattern of a signed integer. -/
def i32pat (i : Int) : Nat := (i % (M32 : Int)).toNat

/-- Rust `((x as i32) << sh >> sh) as i64`: sign extension of a low bit-field
by shifting left then arithmetically right inside `i32`, widened to `i64`. -/
def sext32via (x : Nat) (sh : Nat) : Nat := i64pat ((toI32 (wrap32 (x <<< sh))) >>> sh)

/-! ## disasm.rs: opcodes and instruction records -/

/-- RISC-V opcodes (RV64GC subset), from `disasm.rs` (`enum Opcode`); the
floating-point comparison/convert/sign-injection variants are the ones
`translate.rs` additionally matches on. -/
inductive Opcode where
  | LUI | AUIPC | JAL | JALR
  | BEQ | BNE | BLT | BGE | BLTU | BGEU
  | LB | LH | LW | LBU | LHU | SB | SH | SW
  | ADDI | SLTI | SLTIU | XORI | ORI | ANDI | SLLI | SRLI | SRAI
  | ADD | SUB | SLL | SLT | SLTU | XOR | SRL | SRA | OR | AND
  | FENCE | ECALL | EBREAK
  | LWU | LD | SD | ADDIW | SLLIW | SRLIW | SRAIW
  | ADDW | SUBW | SLLW | SRLW | SRAW
  | MUL | MULH | MULHSU | MULHU | DIV | DIVU | REM | REMU
  | MULW | DIVW | DIVUW | REMW | REMUW
  | LR_W | SC_W | AMOSWAP_W | AMOADD_W | AMOXOR_W | AMOAND_W | AMOOR_W
  | AMOMIN_W | AMOMAX_W | AMOMINU_W | AMOMAXU_W
  | LR_D | SC_D | AMOSWAP_D | AMOADD_D | AMOXOR_D | AMOAND_D | AMOOR_D
  | AMOMIN_D | AMOMAX_D | AMOMINU_D | AMOMAXU_D
  | FLW | FSW | FLD | FSD
  | FMADD_S | FMSUB_S | FNMSUB_S | FNMADD_S
  | FADD_S | FSUB_S | FMUL_S | FDIV_S | FSQRT_S
  | FMADD_D | FMSUB_D | FNMSUB_D | FNMADD_D
  | FADD_D | FSUB_D | FMUL_D | FDIV_D | FSQRT_D
  | C_ADDI4SPN | C_LW | C_SW | C_NOP | C_ADDI | C_JAL | C_LI
  | C_ADDI16SP | C_LUI | C_SRLI | C_SRAI | C_ANDI
  | C_SUB | C_XOR | C_OR | C_AND
  | C_J | C_BEQZ | C_BNEZ | C_SLLI | C_LWSP | C_JR | C_MV
  | C_EBREAK | C_JALR | C_ADD | C_SWSP | C_LD | C_SD | C_LDSP | C_SDSP
  | C_ADDIW | C_SUBW | C_ADDW
  | FSGNJ_S | FSGNJN_S | FSGNJX_S | FSGNJ_D | FSGNJN_D | FSGNJX_D
  | FMIN_S | FMAX_S | FMIN_D | FMAX_D
  | FEQ_S | FLT_S | FLE_S | FEQ_D | FLT_D | FLE_D
  | FCVT_W_S | FCVT_WU_S | FCVT_L_S | FCVT_LU_S
  | FCVT_W_D | FCVT_WU_D | FCVT_L_D | FCVT_LU_D
  | FCVT_S_W | FCVT_S_WU | FCVT_S_L | FCVT_S_LU
  | FCVT_D_W | FCVT_D_WU | FCVT_D_L | FCVT_D_LU
  | FCVT_S_D | FCVT_D_S
  | FMV_X_W | FMV_W_X | FMV_X_D | FMV_D_X
  | FCLASS_S | FCLASS_D
  | Unknown
  deriving Repr, DecidableEq

/-- `Opcode::is_branch` from disasm.rs. -/
def Opcode.is_branch : Opcode → Bool
  | .BEQ | .BNE | .BLT | .BGE | .BLTU | .BGEU | .C_BEQZ | .C_BNEZ => true
  | _ => false

/-- `Opcode::is_jump` from disasm.rs. -/
def Opcode.is_jump : Opcode → Bool
  | .JAL | .JALR | .C_J | .C_JAL | .C_JR | .C_JALR => true
  | _ => false

/-- `Opcode::is_syscall` from disasm.rs. -/
def Opcode.is_syscall : Opcode → Bool
  | .ECALL => true
  | _ => false

/-- `Opcode::is_terminator` from disasm.rs. -/
def Opcode.is_terminator (o : Opcode) : Bool :=
  o.is_branch || o.is_jump || o.is_syscall || o == Opcode.EBREAK

/-- A decoded RISC-V instruction (`struct Instruction` in disasm.rs).
`addr` is a `u64` pattern, `bytes` a `u32` pattern, `imm` an `i64` pattern. -/
structure Instruction where
  addr : Nat
  bytes : Nat
  len : Nat
  opcode : Opcode
  rd : Option Nat
  rs1 : Option Nat
  rs2 : Option Nat
  imm : Option Nat
  deriving Repr, DecidableEq

/-! Immediate decoders from disasm.rs. -/

/-- `decode_j_imm`. -/
def decode_j_imm (inst : Nat) : Nat :=
  let imm20 := (inst >>> 31) &&& 0x1
  let imm10_1 := (inst >>> 21) &&& 0x3ff
  let imm11 := (inst >>> 20) &&& 0x1
  let imm19_12 := (inst >>> 12) &&& 0xff
  let imm := (imm20 <<< 20) ||| (imm19_12 <<< 12) ||| (imm11 <<< 11) ||| (imm10_1 <<< 1)
  sext32via imm 11

/-- `decode_b_imm`. -/
def decode_b_imm (inst : Nat) : Nat :=
  let imm12 := (inst >>> 31) &&& 0x1
  let imm10_5 := (inst >>> 25) &&& 0x3f
  let imm4_1 := (inst >>> 8) &&& 0xf
  let imm11 := (inst >>> 7) &&& 0x1
  let imm := (imm12 <<< 12) ||| (imm11 <<< 11) ||| (imm10_5 <<< 5) ||| (imm4_1 <<< 1)
  sext32via imm 19

/-- `decode_s_imm`. -/
def decode_s_imm (inst : Nat) : Nat :=
  let imm11_5 := (inst >>> 25) &&& 0x7f
  let imm4_0 := (inst >>> 7) &&& 0x1f
  let imm := (imm11_5 <<< 5) ||| imm4_0
  sext32via imm 20

/-- `decode_ci_imm`. -/
def decode_ci_imm (inst : Nat) : Nat :=
  let imm5 := (inst >>> 12) &&& 0x1
  let imm4_0 := (inst >>> 2) &&& 0x1f
  let imm := (imm5 <<< 5) ||| imm4_0
  sext32via imm 26

/-- `decode_ci_shamt`. -/
def decode_ci_shamt (inst : Nat) : Nat :=
  let shamt5 := (inst >>> 12) &&& 0x1
  let shamt4_0 := (inst >>> 2) &&& 0x1f
  (shamt5 <<< 5) ||| shamt4_0

/-- `decode_ci_lui_imm`. -/
def decode_ci_lui_imm (inst : Nat) : Nat :=
  let imm17 := (inst >>> 12) &&& 0x1
  let imm16_12 := (inst >>> 2) &&& 0x1f
  let imm := (imm17 <<< 17) ||| (imm16_12 <<< 12)
  sext32via imm 14

/-- `decode_ci_lwsp_imm`. -/
def decode_ci_lwsp_imm (inst : Nat) : Nat :=
  let imm5 := (inst >>> 12) &&& 0x1
  let imm4_2 := (inst >>> 4) &&& 0x7
  let imm7_6 := (inst >>> 2) &&& 0x3
  (imm5 <<< 5) ||| (imm4_2 <<< 2) ||| (imm7_6 <<< 6)

/-- `decode_ci_ldsp_imm`. -/
def decode_ci_ldsp_imm (inst : Nat) : Nat :=
  let imm5 := (inst >>> 12) &&& 0x1
  let imm4_3 := (inst >>> 5) &&& 0x3
  let imm8_6 := (inst >>> 2) &&& 0x7
  (imm5 <<< 5) ||| (imm4_3 <<< 3) ||| (imm8_6 <<< 6)

/-- `decode_css_imm_w`. -/
def decode_css_imm_w (inst : Nat) : Nat :=
  let imm5_2 := (inst >>> 9) &&& 0xf
  let imm7_6 := (inst >>> 7) &&& 0x3
  (imm5_2 <<< 2) ||| (imm7_6 <<< 6)

/-- `decode_css_imm_d`. -/
def decode_css_imm_d (inst : Nat) : Nat :=
  let imm5_3 := (inst >>> 10) &&& 0x7
  let imm8_6 := (inst >>> 7) &&& 0x7
  (imm5_3 <<< 3) ||| (imm8_6 <<< 6)

/-- `decode_ciw_imm`. -/
def decode_ciw_imm (inst : Nat) : Nat :=
  let imm5_4 := (inst >>> 11) &&& 0x3
  let imm9_6 := (inst >>> 7) &&& 0xf
  let imm2 := (inst >>> 6) &&& 0x1
  let imm3 := (inst >>> 5) &&& 0x1
  (imm5_4 <<< 4) ||| (imm9_6 <<< 6) ||| (imm2 <<< 2) ||| (imm3 <<< 3)

/-- `decode_cl_imm_w`. -/
def decode_cl_imm_w (inst : Nat) : Nat :=
  let imm5_3 := (inst >>> 10) &&& 0x7
  let imm2 := (inst >>> 6) &&& 0x1
  let imm6 := (inst >>> 5) &&& 0x1
  (imm5_3 <<< 3) ||| (imm2 <<< 2) ||| (imm6 <<< 6)

/-- `decode_cl_imm_d`. -/
def decode_cl_imm_d (inst : Nat) : Nat :=
  let imm5_3 := (inst >>> 10) &&& 0x7
  let imm7_6 := (inst >>> 5) &&& 0x3
  (imm5_3 <<< 3) ||| (imm7_6 <<< 6)

/-- `decode_cb_imm`. -/
def decode_cb_imm (inst : Nat) : Nat :=
  let imm8 := (inst >>> 12) &&& 0x1
  let imm4_3 := (inst >>> 10) &&& 0x3
  let imm7_6 := (inst >>> 5) &&& 0x3
  let imm2_1 := (inst >>> 3) &&& 0x3
  let imm5 := (inst >>> 2) &&& 0x1
  let imm := (imm8 <<< 8) ||| (imm4_3 <<< 3) ||| (imm7_6 <<< 6) ||| (imm2_1 <<< 1) ||| (imm5 <<< 5)
  sext32via imm 23

/-- `decode_cj_imm`. -/
def decode_cj_imm (inst : Nat) : Nat :=
  let imm11 := (inst >>> 12) &&& 0x1
  let imm4 := (inst >>> 11) &&& 0x1
  let imm9_8 := (inst >>> 9) &&& 0x3
  let imm10 := (inst >>> 8) &&& 0x1
  let imm6 := (inst >>> 7) &&& 0x1
  let imm7 := (inst >>> 6) &&& 0x1
  let imm3_1 := (inst >>> 3) &&& 0x7
  let imm5 := (inst >>> 2) &&& 0x1
  let imm := (imm11 <<< 11) ||| (imm10 <<< 10) ||| (imm9_8 <<< 8) ||| (imm7 <<< 7) |||
    (imm6 <<< 6) ||| (imm5 <<< 5) ||| (imm4 <<< 4) ||| (imm3_1 <<< 1)
  sext32via imm 20

/-- `decode_addi16sp_imm`. -/
def decode_addi16sp_imm (inst : Nat) : Nat :=
  let imm9 := (inst >>> 12) &&& 0x1
  let imm4 := (inst >>> 6) &&& 0x1
  let imm6 := (inst >>> 5) &&& 0x1
  let imm8_7 := (inst >>> 3) &&& 0x3
  let imm5 := (inst >>> 2) &&& 0x1
  let imm := (imm9 <<< 9) ||| (imm8_7 <<< 7) ||| (imm6 <<< 6) ||| (imm5 <<< 5) ||| (imm4 <<< 4)
  sext32via imm 22

/-- The `(bytes as i32 >> 20) as i64` I-type immediate used throughout
`decode_32bit`. -/
def iTypeImm (bytes : Nat) : Nat := i64pat ((toI32 bytes) >>> 20)

/-- The `(bytes & 0xfffff000) as i32 as i64` U-type immediate of LUI/AUIPC. -/
def uTypeImm (bytes : Nat) : Nat := i64pat (toI32 (bytes &&& 0xfffff000))

/-- The opcode/immediate selection of `decode_32bit` (the big `match
opcode_bits` in disasm.rs, split into a helper for the record fields). -/
def decode32Op (opcode_bits funct3 funct7 bytes : Nat) : Opcode × Option Nat :=
  if opcode_bits = 0x37 then (Opcode.LUI, some (uTypeImm bytes))
  else if opcode_bits = 0x17 then (Opcode.AUIPC, some (uTypeImm bytes))
  else if opcode_bits = 0x6f then (Opcode.JAL, some (decode_j_imm bytes))
  else if opcode_bits = 0x67 then (Opcode.JALR, some (iTypeImm bytes))
  else if opcode_bits = 0x63 then
    let op := if funct3 = 0 then Opcode.BEQ else if funct3 = 1 then Opcode.BNE
      else if funct3 = 4 then Opcode.BLT else if funct3 = 5 then Opcode.BGE
      else if funct3 = 6 then Opcode.BLTU else if funct3 = 7 then Opcode.BGEU
      else Opcode.Unknown
    (op, some (decode_b_imm bytes))
  else if opcode_bits = 0x03 then
    let op := if funct3 = 0 then Opcode.LB else if funct3 = 1 then Opcode.LH
      else if funct3 = 2 then Opcode.LW else if funct3 = 3 then Opcode.LD
      else if funct3 = 4 then Opcode.LBU else if funct3 = 5 then Opcode.LHU
      else if funct3 = 6 then Opcode.LWU else Opcode.Unknown
    (op, some (iTypeImm bytes))
  else if opcode_bits = 0x23 then
    let op := if funct3 = 0 then Opcode.SB else if funct3 = 1 then Opcode.SH
      else if funct3 = 2 then Opcode.SW else if funct3 = 3 then Opcode.SD
      else Opcode.Unknown
    (op, some (decode_s_imm bytes))
  else if opcode_bits = 0x13 then
    let op := if funct3 = 0 then Opcode.ADDI else if funct3 = 1 then Opcode.SLLI
      else if funct3 = 2 then Opcode.SLTI else if funct3 = 3 then Opcode.SLTIU
      else if funct3 = 4 then Opcode.XORI
      else if funct3 = 5 then (if funct7 = 0x20 then Opcode.SRAI else Opcode.SRLI)
      else if funct3 = 6 then Opcode.ORI else if funct3 = 7 then Opcode.ANDI
      else Opcode.Unknown
    (op, some (iTypeImm bytes))
  else if opcode_bits = 0x1b then
    let op := if funct3 = 0 then Opcode.ADDIW else if funct3 = 1 then Opcode.SLLIW
      else if funct3 = 5 then (if funct7 = 0x20 then Opcode.SRAIW else Opcode.SRLIW)
      else Opcode.Unknown
    (op, some (iTypeImm bytes))
  else if opcode_bits = 0x33 then
    let op := if funct7 = 0x00 ∧ funct3 = 0 then Opcode.ADD
      else if funct7 = 0x20 ∧ funct3 = 0 then Opcode.SUB
      else if funct7 = 0x00 ∧ funct3 = 1 then Opcode.SLL
      else if funct7 = 0x00 ∧ funct3 = 2 then Opcode.SLT
      else if funct7 = 0x00 ∧ funct3 = 3 then Opcode.SLTU
      else if funct7 = 0x00 ∧ funct3 = 4 then Opcode.XOR
      else if funct7 = 0x00 ∧ funct3 = 5 then Opcode.SRL
      else if funct7 = 0x20 ∧ funct3 = 5 then Opcode.SRA
      else if funct7 = 0x00 ∧ funct3 = 6 then Opcode.OR
      else if funct7 = 0x00 ∧ funct3 = 7 then Opcode.AND
      else if funct7 = 0x01 ∧ funct3 = 0 then Opcode.MUL
      else if funct7 = 0x01 ∧ funct3 = 1 then Opcode.MULH
      else if funct7 = 0x01 ∧ funct3 = 2 then Opcode.MULHSU
      else if funct7 = 0x01 ∧ funct3 = 3 then Opcode.MULHU
      else if funct7 = 0x01 ∧ funct3 = 4 then Opcode.DIV
      else if funct7 = 0x01 ∧ funct3 = 5 then Opcode.DIVU
      else if funct7 = 0x01 ∧ funct3 = 6 then Opcode.REM
      else if funct7 = 0x01 ∧ funct3 = 7 then Opcode.REMU
      else Opcode.Unknown
    (op, none)
  else if opcode_bits = 0x3b then
    let op := if funct7 = 0x00 ∧ funct3 = 0 then Opcode.ADDW
      else if funct7 = 0x20 ∧ funct3 = 0 then Opcode.SUBW
      else if funct7 = 0x00 ∧ funct3 = 1 then Opcode.SLLW
      else if funct7 = 0x00 ∧ funct3 = 5 then Opcode.SRLW
      else if funct7 = 0x20 ∧ funct3 = 5 then Opcode.SRAW
      else if funct7 = 0x01 ∧ funct3 = 0 then Opcode.MULW
      else if funct7 = 0x01 ∧ funct3 = 4 then Opcode.DIVW
      else if funct7 = 0x01 ∧ funct3 = 5 then Opcode.DIVUW
      else if funct7 = 0x01 ∧ funct3 = 6 then Opcode.REMW
      else if funct7 = 0x01 ∧ funct3 = 7 then Opcode.REMUW
      else Opcode.Unknown
    (op, none)
  else if opcode_bits = 0x0f then (Opcode.FENCE, none)
  else if opcode_bits = 0x73 then
    (if bytes = 0x00000073 then Opcode.ECALL
     else if bytes = 0x00100073 then Opcode.EBREAK
     else Opcode.Unknown, none)
  else if opcode_bits = 0x2f then
    let funct5 := funct7 >>> 2
    let op := if funct3 = 2 ∧ funct5 = 0x02 then Opcode.LR_W
      else if funct3 = 2 ∧ funct5 = 0x03 then Opcode.SC_W
      else if funct3 = 2 ∧ funct5 = 0x01 then Opcode.AMOSWAP_W
      else if funct3 = 2 ∧ funct5 = 0x00 then Opcode.AMOADD_W
      else if funct3 = 2 ∧ funct5 = 0x04 then Opcode.AMOXOR_W
      else if funct3 = 2 ∧ funct5 = 0x0c then Opcode.AMOAND_W
      else if funct3 = 2 ∧ funct5 = 0x08 then Opcode.AMOOR_W
      else if funct3 = 2 ∧ funct5 = 0x10 then Opcode.AMOMIN_W
      else if funct3 = 2 ∧ funct5 = 0x14 then Opcode.AMOMAX_W
      else if funct3 = 2 ∧ funct5 = 0x18 then Opcode.AMOMINU_W
      else if funct3 = 2 ∧ funct5 = 0x1c then Opcode.AMOMAXU_W
      else if funct3 = 3 ∧ funct5 = 0x02 then Opcode.LR_D
      else if funct3 = 3 ∧ funct5 = 0x03 then Opcode.SC_D
      else if funct3 = 3 ∧ funct5 = 0x01 then Opcode.AMOSWAP_D
      else if funct3 = 3 ∧ funct5 = 0x00 then Opcode.AMOADD_D
      else if funct3 = 3 ∧ funct5 = 0x04 then Opcode.AMOXOR_D
      else if funct3 = 3 ∧ funct5 = 0x0c then Opcode.AMOAND_D
      else if funct3 = 3 ∧ funct5 = 0x08 then Opcode.AMOOR_D
      else if funct3 = 3 ∧ funct5 = 0x10 then Opcode.AMOMIN_D
      else if funct3 = 3 ∧ funct5 = 0x14 then Opcode.AMOMAX_D
      else if funct3 = 3 ∧ funct5 = 0x18 then Opcode.AMOMINU_D
      else if funct3 = 3 ∧ funct5 = 0x1c then Opcode.AMOMAXU_D
      else Opcode.Unknown
    (op, none)
  else (Opcode.Unknown, none)

/-- `decode_32bit` from disasm.rs. -/
def decode_32bit (addr : Nat) (bytes : Nat) : Instruction :=
  let opcode_bits := bytes &&& 0x7f
  let rd := (bytes >>> 7) &&& 0x1f
  let funct3 := (bytes >>> 12) &&& 0x7
  let rs1 := (bytes >>> 15) &&& 0x1f
  let rs2 := (bytes >>> 20) &&& 0x1f
  let funct7 := (bytes >>> 25) &&& 0x7f
  let oi := decode32Op opcode_bits funct3 funct7 bytes
  { addr := addr, bytes := bytes, len := 4, opcode := oi.1,
    rd := some rd, rs1 := some rs1, rs2 := some rs2, imm := oi.2 }

/-- The `(opcode, rd, rs1, rs2, imm)` selection of `decode_compressed`. -/
def decodeCFields (bytes : Nat) :
    Opcode × Option Nat × Option Nat × Option Nat × Option Nat :=
  let quadrant := bytes &&& 0x3
  let funct3 := (bytes >>> 13) &&& 0x7
  if quadrant = 0 ∧ funct3 = 0 then
    let rd := ((bytes >>> 2) &&& 0x7) + 8
    (Opcode.C_ADDI4SPN, some rd, some 2, none, some (decode_ciw_imm bytes))
  else if quadrant = 0 ∧ funct3 = 2 then
    let rd := ((bytes >>> 2) &&& 0x7) + 8
    let rs1 := ((bytes >>> 7) &&& 0x7) + 8
    (Opcode.C_LW, some rd, some rs1, none, some (decode_cl_imm_w bytes))
  else if quadrant = 0 ∧ funct3 = 3 then
    let rd := ((bytes >>> 2) &&& 0x7) + 8
    let rs1 := ((bytes >>> 7) &&& 0x7) + 8
    (Opcode.C_LD, some rd, some rs1, none, some (decode_cl_imm_d bytes))
  else if quadrant = 0 ∧ funct3 = 6 then
    let rs2 := ((bytes >>> 2) &&& 0x7) + 8
    let rs1 := ((bytes >>> 7) &&& 0x7) + 8
    (Opcode.C_SW, none, some rs1, some rs2, some (decode_cl_imm_w bytes))
  else if quadrant = 0 ∧ funct3 = 7 then
    let rs2 := ((bytes >>> 2) &&& 0x7) + 8
    let rs1 := ((bytes >>> 7) &&& 0x7) + 8
    (Opcode.C_SD, none, some rs1, some rs2, some (decode_cl_imm_d bytes))
  else if quadrant = 1 ∧ funct3 = 0 then
    let rd := (bytes >>> 7) &&& 0x1f
    if rd = 0 then (Opcode.C_NOP, none, none, none, none)
    else (Opcode.C_ADDI, some rd, some rd, none, some (decode_ci_imm bytes))
  else if quadrant = 1 ∧ funct3 = 1 then
    let rd := (bytes >>> 7) &&& 0x1f
    (Opcode.C_ADDIW, some rd, some rd, none, some (decode_ci_imm bytes))
  else if quadrant = 1 ∧ funct3 = 2 then
    let rd := (bytes >>> 7) &&& 0x1f
    (Opcode.C_LI, some rd, some 0, none, some (decode_ci_imm bytes))
  else if quadrant = 1 ∧ funct3 = 3 then
    let rd := (bytes >>> 7) &&& 0x1f
    if rd = 2 then (Opcode.C_ADDI16SP, some 2, some 2, none, some (decode_addi16sp_imm bytes))
    else (Opcode.C_LUI, some rd, none, none, some (decode_ci_lui_imm bytes))
  else if quadrant = 1 ∧ funct3 = 4 then
    let rd := ((bytes >>> 7) &&& 0x7) + 8
    let funct2 := (bytes >>> 10) &&& 0x3
    if funct2 = 0 then (Opcode.C_SRLI, some rd, some rd, none, some (decode_ci_shamt bytes))
    else if funct2 = 1 then (Opcode.C_SRAI, some rd, some rd, none, some (decode_ci_shamt bytes))
    else if funct2 = 2 then (Opcode.C_ANDI, some rd, some rd, none, some (decode_ci_imm bytes))
    else
      let rs2 := ((bytes >>> 2) &&& 0x7) + 8
      let funct := (bytes >>> 5) &&& 0x3
      let funct12 := (bytes >>> 12) &&& 0x1
      let op := if funct12 = 0 ∧ funct = 0 then Opcode.C_SUB
        else if funct12 = 0 ∧ funct = 1 then Opcode.C_XOR
        else if funct12 = 0 ∧ funct = 2 then Opcode.C_OR
        else if funct12 = 0 ∧ funct = 3 then Opcode.C_AND
        else if funct12 = 1 ∧ funct = 0 then Opcode.C_SUBW
        else if funct12 = 1 ∧ funct = 1 then Opcode.C_ADDW
        else Opcode.Unknown
      (op, some rd, some rd, some rs2, none)
  else if quadrant = 1 ∧ funct3 = 5 then
    (Opcode.C_J, some 0, none, none, some (decode_cj_imm bytes))
  else if quadrant = 1 ∧ funct3 = 6 then
    let rs1 := ((bytes >>> 7) &&& 0x7) + 8
    (Opcode.C_BEQZ, none, some rs1, some 0, some (decode_cb_imm bytes))
  else if quadrant = 1 ∧ funct3 = 7 then
    let rs1 := ((bytes >>> 7) &&& 0x7) + 8
    (Opcode.C_BNEZ, none, some rs1, some 0, some (decode_cb_imm bytes))
  else if quadrant = 2 ∧ funct3 = 0 then
    let rd := (bytes >>> 7) &&& 0x1f
    (Opcode.C_SLLI, some rd, some rd, none, some (decode_ci_shamt bytes))
  else if quadrant = 2 ∧ funct3 = 2 then
    let rd := (bytes >>> 7) &&& 0x1f
    (Opcode.C_LWSP, some rd, some 2, none, some (decode_ci_lwsp_imm bytes))
  else if quadrant = 2 ∧ funct3 = 3 then
    let rd := (bytes >>> 7) &&& 0x1f
    (Opcode.C_LDSP, some rd, some 2, none, some (decode_ci_ldsp_imm bytes))
  else if quadrant = 2 ∧ funct3 = 4 then
    let rs1 := (bytes >>> 7) &&& 0x1f
    let rs2 := (bytes >>> 2) &&& 0x1f
    let bit12 := (bytes >>> 12) &&& 0x1
    if bit12 = 0 then
      if rs2 = 0 then (Opcode.C_JR, some 0, some rs1, none, some 0)
      else (Opcode.C_MV, some rs1, some 0, some rs2, none)
    else if rs2 = 0 then
      if rs1 = 0 then (Opcode.C_EBREAK, none, none, none, none)
      else (Opcode.C_JALR, some 1, some rs1, none, some 0)
    else (Opcode.C_ADD, some rs1, some rs1, some rs2, none)
  else if quadrant = 2 ∧ funct3 = 6 then
    let rs2 := (bytes >>> 2) &&& 0x1f
    (Opcode.C_SWSP, none, some 2, some rs2, some (decode_css_imm_w bytes))
  else if quadrant = 2 ∧ funct3 = 7 then
    let rs2 := (bytes >>> 2) &&& 0x1f
    (Opcode.C_SDSP, none, some 2, some rs2, some (decode_css_imm_d bytes))
  else (Opcode.Unknown, none, none, none, none)

/-- `decode_compressed` from disasm.rs. -/
def decode_compressed (addr : Nat) (bytes : Nat) : Instruction :=
  let f := decodeCFields bytes
  { addr := addr, bytes := bytes, len := 2, opcode := f.1,
    rd := f.2.1, rs1 := f.2.2.1, rs2 := f.2.2.2.1, imm := f.2.2.2.2 }

/-- An executable byte range (`struct CodeSection` in elf.rs): bytes are
naturals < 256. -/
structure CodeSection where
  vaddr : Nat
  data : List Nat
  name : String
  deriving Repr

/-- The 16-bit little-endian word read at `off` in `disassemble`. -/
def word16le (data : List Nat) (off : Nat) : Nat :=
  (data.getD off 0) ||| ((data.getD (off + 1) 0) <<< 8)

/-- The 32-bit little-endian word read at `off` in `disassemble`. -/
def word32le (data : List Nat) (off : Nat) : Nat :=
  (data.getD off 0) ||| ((data.getD (off + 1) 0) <<< 8) |||
    ((data.getD (off + 2) 0) <<< 16) ||| ((data.getD (off + 3) 0) <<< 24)

/-- The cursor loop of `disassemble` from disasm.rs, starting at `off`
(`first_byte` is `data[off]`; compressed when its low two bits are not `11`). -/
def disFrom (data : List Nat) (vaddr : Nat) (off : Nat) : List Instruction :=
  if _h : off < data.length then
    if (data.getD off 0 &&& 0x03) ≠ 0x03 then
      if off + 2 ≤ data.length then
        decode_compressed (wrap64 (vaddr + off)) (word16le data off) :: disFrom data vaddr (off + 2)
      else []
    else
      if off + 4 ≤ data.length then
        decode_32bit (wrap64 (vaddr + off)) (word32le data off) :: disFrom data vaddr (off + 4)
      else []
  else []
  termination_by data.length - off
  decreasing_by
    · omega
    · omega

theorem disFrom_done {data : List Nat} (vaddr : Nat) {off : Nat}
    (h : data.length ≤ off) : disFrom data vaddr off = [] := by
  rw [disFrom, dif_neg (by omega)]

theorem disFrom_comp {data : List Nat} (vaddr : Nat) {off : Nat}
    (hoff : off < data.length) (hc : (data.getD off 0 &&& 0x03) ≠ 0x03)
    (h2 : off + 2 ≤ data.length) :
    disFrom data vaddr off =
      decode_compressed (wrap64 (vaddr + off)) (word16le data off) ::
        disFrom data vaddr (off + 2) := by
  rw [disFrom, dif_pos hoff, if_pos hc, if_pos h2]

theorem disFrom_short2 {data : List Nat} (vaddr : Nat) {off : Nat}
    (hoff : off < data.length) (hc : (data.getD off 0 &&& 0x03) ≠ 0x03)
    (h2 : ¬ off + 2 ≤ data.length) : disFrom data vaddr off = [] := by
  rw [disFrom, dif_pos hoff, if_pos hc, if_neg h2]

theorem disFrom_wide {data : List Nat} (vaddr : Nat) {off : Nat}
    (hoff : off < data.length) (hc : ¬ (data.getD off 0 &&& 0x03) ≠ 0x03)
    (h4 : off + 4 ≤ data.length) :
    disFrom data vaddr off =
      decode_32bit (wrap64 (vaddr + off)) (word32le data off) ::
        disFrom data vaddr (off + 4) := by
  rw [disFrom, dif_pos hoff, if_neg hc, if_pos h4]

theorem disFrom_short4 {data : List Nat} (vaddr : Nat) {off : Nat}
    (hoff : off < data.length) (hc : ¬ (data.getD off 0 &&& 0x03) ≠ 0x03)
    (h4 : ¬ off + 4 ≤ data.length) : disFrom data vaddr off = [] := by
  rw [disFrom, dif_pos hoff, if_neg hc, if_neg h4]

/-- `disassemble` from disasm.rs (always returns `Ok`, so the embedding
returns the list directly). -/
def disassemble (sec : CodeSection) : List Instruction :=
  disFrom sec.data sec.vaddr 0

/-! ## C7: decoder totality -/

/-- Following the spec's words (C7): the decoder walks windows of 2 bytes
(when the low two bits of the next byte are not `11`) or 4 bytes (otherwise),
emitting exactly one record per window, and stops without a partial record
when the tail is shorter than the window. -/
inductive Windows (data : List Nat) (vaddr : Nat) : Nat → List Instruction → Prop where
  | done (off : Nat) : data.length ≤ off → Windows data vaddr off []
  | short2 (off : Nat) : off < data.length → (data.getD off 0) &&& 0x03 ≠ 0x03 →
      data.length < off + 2 → Windows data vaddr off []
  | short4 (off : Nat) : off < data.length → (data.getD off 0) &&& 0x03 = 0x03 →
      data.length < off + 4 → Windows data vaddr off []
  | comp (off : Nat) (rs : List Instruction) : off < data.length →
      (data.getD off 0) &&& 0x03 ≠ 0x03 → off + 2 ≤ data.length →
      Windows data vaddr (off + 2) rs →
      Windows data vaddr off (decode_compressed (wrap64 (vaddr + off)) (word16le data off) :: rs)
  | wide (off : Nat) (rs : List Instruction) : off < data.length →
      (data.getD off 0) &&& 0x03 = 0x03 → off + 4 ≤ data.length →
      Windows data vaddr (off + 4) rs →
      Windows data vaddr off (decode_32bit (wrap64 (vaddr + off)) (word32le data off) :: rs)

theorem decode_compressed_len (a b : Nat) : (decode_compressed a b).len = 2 := rfl

theorem decode_32bit_len (a b : Nat) : (decode_32bit a b).len = 4 := rfl

theorem decode_compressed_addr (a b : Nat) : (decode_compressed a b).addr = a := rfl

theorem decode_32bit_addr (a b : Nat) : (decode_32bit a b).addr = a := rfl

theorem wrap64_add_left (a b : Nat) : wrap64 (wrap64 a + b) = wrap64 (a + b) :=
  Nat.mod_add_mod a M64 b

theorem disFrom_windows (data : List Nat) (vaddr : Nat) :
    ∀ off, Windows data vaddr off (disFrom data vaddr off) := by
  have main : ∀ k off, data.length - off ≤ k →
      Windows data vaddr off (disFrom data vaddr off) := by
    intro k
    induction k with
    | zero =>
      intro off h
      rw [disFrom_done vaddr (by omega)]
      exact Windows.done off (by omega)
    | succ k ih =>
      intro off h
      by_cases hoff : off < data.length
      · by_cases hc : (data.getD off 0 &&& 0x03) ≠ 0x03
        · by_cases h2 : off + 2 ≤ data.length
          · rw [disFrom_comp vaddr hoff hc h2]
            exact Windows.comp off _ hoff hc h2 (ih (off + 2) (by omega))
          · rw [disFrom_short2 vaddr hoff hc h2]
            exact Windows.short2 off hoff hc (by omega)
        · by_cases h4 : off + 4 ≤ data.length
          · rw [disFrom_wide vaddr hoff hc h4]
            exact Windows.wide off _ hoff (by omega) h4 (ih (off + 4) (by omega))
          · rw [disFrom_short4 vaddr hoff hc h4]
            exact Windows.short4 off hoff (by omega) (by omega)
      · rw [disFrom_done vaddr (by omega)]
        exact Windows.done off (by omega)
  intro off
  exact main (data.length - off) off (Nat.le_refl _)

theorem disFrom_len_mem (data : List Nat) (vaddr : Nat) :
    ∀ off r, r ∈ disFrom data vaddr off → r.len = 2 ∨ r.len = 4 := by
  have main : ∀ k off, data.length - off ≤ k →
      ∀ r, r ∈ disFrom data vaddr off → r.len = 2 ∨ r.len = 4 := by
    intro k
    induction k with
    | zero =>
      intro off h r hr
      rw [disFrom_done vaddr (by omega)] at hr
      simp at hr
    | succ k ih =>
      intro off h r hr
      by_cases hoff : off < data.length
      · by_cases hc : (data.getD off 0 &&& 0x03) ≠ 0x03
        · by_cases h2 : off + 2 ≤ data.length
          · rw [disFrom_comp vaddr hoff hc h2, List.mem_cons] at hr
            rcases hr with rfl | hr
            · exact Or.inl rfl
            · exact ih (off + 2) (by omega) r hr
          · rw [disFrom_short2 vaddr hoff hc h2] at hr
            simp at hr
        · by_cases h4 : off + 4 ≤ data.length
          · rw [disFrom_wide vaddr hoff hc h4, List.mem_cons] at hr
            rcases hr with rfl | hr
            · exact Or.inr rfl
            · exact ih (off + 4) (by omega) r hr
          · rw [disFrom_short4 vaddr hoff hc h4] at hr
            simp at hr
      · rw [disFrom_done vaddr (by omega)] at hr
        simp at hr
  intro off
  exact main (data.length - off) off (Nat.le_refl _)

theorem disFrom_head_addr (data : List Nat) (vaddr : Nat) (off : Nat) :
    ∀ r ∈ (disFrom data vaddr off).head?, r.addr = wrap64 (vaddr + off) := by
  intro r hr
  by_cases hoff : off < data.length
  · by_cases hc : (data.getD off 0 &&& 0x03) ≠ 0x03
    · by_cases h2 : off + 2 ≤ data.length
      · rw [disFrom_comp vaddr hoff hc h2] at hr
        simp only [List.head?_cons, Option.mem_def, Option.some.injEq] at hr
        rw [← hr, decode_compressed_addr]
      · rw [disFrom_short2 vaddr hoff hc h2] at hr
        simp at hr
    · by_cases h4 : off + 4 ≤ data.length
      · rw [disFrom_wide vaddr hoff hc h4] at hr
        simp only [List.head?_cons, Option.mem_def, Option.some.injEq] at hr
        rw [← hr, decode_32bit_addr]
      · rw [disFrom_short4 vaddr hoff hc h4] at hr
        simp at hr
  · rw [disFrom_done vaddr (by omega)] at hr
    simp at hr

theorem disFrom_chain (data : List Nat) (vaddr : Nat) :
    ∀ off, List.Chain' (fun a b => b.addr = wrap64 (a.addr + a.len)) (disFrom data vaddr off) := by
  have main : ∀ k off, data.length - off ≤ k →
      List.Chain' (fun a b => b.addr = wrap64 (a.addr + a.len)) (disFrom data vaddr off) := by
    intro k
    induction k with
    | zero =>
      intro off h
      rw [disFrom_done vaddr (by omega)]
      exact List.chain'_nil
    | succ k ih =>
      intro off h
      by_cases hoff : off < data.length
      · by_cases hc : (data.getD off 0 &&& 0x03) ≠ 0x03
        · by_cases h2 : off + 2 ≤ data.length
          · rw [disFrom_comp vaddr hoff hc h2, List.chain'_cons']
            refine ⟨?_, ih (off + 2) (by omega)⟩
            intro b hb
            have hb' := disFrom_head_addr data vaddr (off + 2) b hb
            rw [hb', decode_compressed_addr, decode_compressed_len, wrap64_add_left,
              Nat.add_assoc]
          · rw [disFrom_short2 vaddr hoff hc h2]
            exact List.chain'_nil
        · by_cases h4 : off + 4 ≤ data.length
          · rw [disFrom_wide vaddr hoff hc h4, List.chain'_cons']
            refine ⟨?_, ih (off + 4) (by omega)⟩
            intro b hb
            have hb' := disFrom_head_addr data vaddr (off + 4) b hb
            rw [hb', decode_32bit_addr, decode_32bit_len, wrap64_add_left, Nat.add_assoc]
          · rw [disFrom_short4 vaddr hoff hc h4]
            exact List.chain'_nil
      · rw [disFrom_done vaddr (by omega)]
        exact List.chain'_nil
  intro off
  exact main (data.length - off) off (Nat.le_refl _)

theorem disFrom_mem_addr (data : List Nat) (vaddr : Nat) :
    ∀ off r, r ∈ disFrom data vaddr off → ∃ o, off ≤ o ∧ o < data.length ∧
      r.addr = wrap64 (vaddr + o) := by
  have main : ∀ k off, data.length - off ≤ k → ∀ r, r ∈ disFrom data vaddr off →
      ∃ o, off ≤ o ∧ o < data.length ∧ r.addr = wrap64 (vaddr + o) := by
    intro k
    induction k with
    | zero =>
      intro off h r hr
      rw [disFrom_done vaddr (by omega)] at hr
      simp at hr
    | succ k ih =>
      intro off h r hr
      by_cases hoff : off < data.length
      · by_cases hc : (data.getD off 0 &&& 0x03) ≠ 0x03
        · by_cases h2 : off + 2 ≤ data.length
          · rw [disFrom_comp vaddr hoff hc h2, List.mem_cons] at hr
            rcases hr with rfl | hr
            · exact ⟨off, Nat.le_refl _, hoff, rfl⟩
            · obtain ⟨o, ho1, ho2, ho3⟩ := ih (off + 2) (by omega) r hr
              exact ⟨o, by omega, ho2, ho3⟩
          · rw [disFrom_short2 vaddr hoff hc h2] at hr
            simp at hr
        · by_cases h4 : off + 4 ≤ data.length
          · rw [disFrom_wide vaddr hoff hc h4, List.mem_cons] at hr
            rcases hr with rfl | hr
            · exact ⟨off, Nat.le_refl _, hoff, rfl⟩
            · obtain ⟨o, ho1, ho2, ho3⟩ := ih (off + 4) (by omega) r hr
              exact ⟨o, by omega, ho2, ho3⟩
          · rw [disFrom_short4 vaddr hoff hc h4] at hr
            simp at hr
      · rw [disFrom_done vaddr (by omega)] at hr
        simp at hr
  exact fun off => main (data.length - off) off (Nat.le_refl _)

theorem disFrom_pairwise (data : List Nat) (vaddr : Nat)
    (hnw : vaddr + data.length < M64) :
    ∀ off, (disFrom data vaddr off).Pairwise (fun a b => a.addr < b.addr) := by
  have haddr : ∀ o, o < data.length → wrap64 (vaddr + o) = vaddr + o := by
    intro o ho
    exact Nat.mod_eq_of_lt (by omega)
  have main : ∀ k off, data.length - off ≤ k →
      (disFrom data vaddr off).Pairwise (fun a b => a.addr < b.addr) := by
    intro k
    induction k with
    | zero =>
      intro off h
      rw [disFrom_done vaddr (by omega)]
      exact List.Pairwise.nil
    | succ k ih =>
      intro off h
      by_cases hoff : off < data.length
      · by_cases hc : (data.getD off 0 &&& 0x03) ≠ 0x03
        · by_cases h2 : off + 2 ≤ data.length
          · rw [disFrom_comp vaddr hoff hc h2]
            refine List.Pairwise.cons ?_ (ih (off + 2) (by omega))
            intro b hb
            obtain ⟨o, ho1, ho2, ho3⟩ := disFrom_mem_addr data vaddr (off + 2) b hb
            rw [decode_compressed_addr, ho3, haddr off hoff, haddr o ho2]
            omega
          · rw [disFrom_short2 vaddr hoff hc h2]
            exact List.Pairwise.nil
        · by_cases h4 : off + 4 ≤ data.length
          · rw [disFrom_wide vaddr hoff hc h4]
            refine List.Pairwise.cons ?_ (ih (off + 4) (by omega))
            intro b hb
            obtain ⟨o, ho1, ho2, ho3⟩ := disFrom_mem_addr data vaddr (off + 4) b hb
            rw [decode_32bit_addr, ho3, haddr off hoff, haddr o ho2]
            omega
          · rw [disFrom_short4 vaddr hoff hc h4]
            exact List.Pairwise.nil
      · rw [disFrom_done vaddr (by omega)]
        exact List.Pairwise.nil
  exact fun off => main (data.length - off) off (Nat.le_refl _)

/-- C7: decoding is total and windowed.  `disassemble` consumes 2-byte
windows when the low two bits of the leading byte are not `11` and 4-byte
windows otherwise, emits exactly one record per consumed window whose `len`
equals the bytes consumed (`Windows`), chains addresses by `len`
(consecutive records satisfy `b.addr = a.addr + a.len` modulo 2^64, hence
strictly increasing addresses when no wrap occurs), and stops without a
partial record on a short tail.  Unrecognized encodings yield `Opcode.Unknown`
records rather than errors (the decoders are total functions). -/
theorem c7_decoder_totality (sec : CodeSection) :
    Windows sec.data sec.vaddr 0 (disassemble sec) ∧
    (∀ r ∈ disassemble sec, r.len = 2 ∨ r.len = 4) ∧
    List.Chain' (fun a b => b.addr = wrap64 (a.addr + a.len)) (disassemble sec) ∧
    (sec.vaddr + sec.data.length < M64 →
      (disassemble sec).Pairwise (fun a b => a.addr < b.addr)) := by
  refine ⟨disFrom_windows _ _ 0, fun r hr => disFrom_len_mem _ _ 0 r hr,
    disFrom_chain _ _ 0, fun hnw => disFrom_pairwise _ _ hnw 0⟩

/-- Witness for C7 at a concrete section: `addi x5, x0, 7` followed by a
truncated 1-byte tail of a 4-byte instruction. -/
theorem c7_decoder_totality_witness :
    let sec : CodeSection := ⟨0x1000, [0x93, 0x02, 0x70, 0x00, 0x13], "t"⟩
    (sec.vaddr + sec.data.length < M64) ∧
    (disassemble sec).Pairwise (fun a b => a.addr < b.addr) := by
  exact ⟨by decide, (c7_decoder_totality _).2.2.2 (by decide)⟩

/-! ## cfg.rs: basic blocks and the control-flow graph -/

/-- A basic block (`struct BasicBlock` in cfg.rs). -/
structure BasicBlock where
  start_addr : Nat
  end_addr : Nat
  instructions : List Instruction
  successors : List Nat
  is_function_entry : Bool
  deriving Repr, DecidableEq

/-- `BasicBlock::terminator` (the last instruction). -/
def BasicBlock.terminator (b : BasicBlock) : Option Instruction :=
  b.instructions.getLast?

/-- `BasicBlock::is_return`: JALR or C.JR with rs1 = x1 and rd = x0. -/
def BasicBlock.is_return (b : BasicBlock) : Bool :=
  match b.terminator with
  | some term =>
    if term.opcode = Opcode.JALR ∨ term.opcode = Opcode.C_JR then
      term.rs1.getD 0 == 1 && term.rd.getD 0 == 0
    else false
  | none => false

/-- Insertion into a `BTreeSet<u64>`, modelled as a sorted deduplicated list. -/
def bsetInsert (x : Nat) : List Nat → List Nat
  | [] => [x]
  | y :: ys =>
    if x < y then x :: y :: ys
    else if x = y then y :: ys
    else y :: bsetInsert x ys

/-- `find_block_boundaries` from cfg.rs. -/
def find_block_boundaries (instructions : List Instruction) (entry : Nat) : List Nat :=
  let boundaries := bsetInsert entry []
  let boundaries :=
    match instructions.head? with
    | some first => bsetInsert first.addr boundaries
    | none => boundaries
  instructions.foldl (fun boundaries inst =>
    let boundaries :=
      if inst.opcode.is_terminator then bsetInsert (wrap64 (inst.addr + inst.len)) boundaries
      else boundaries
    let boundaries :=
      if inst.opcode.is_branch || inst.opcode.is_jump then
        match inst.imm with
        | some imm => bsetInsert (wrap64 (inst.addr + imm)) boundaries
        | none => boundaries
      else boundaries
    if inst.opcode = Opcode.JAL ∨ inst.opcode = Opcode.C_JAL then
      match inst.imm with
      | some imm => bsetInsert (wrap64 (inst.addr + imm)) boundaries
      | none => boundaries
    else boundaries) boundaries

/-- `compute_successors` from cfg.rs.  `(inst.addr as i64 + imm) as u64` is
the wrapping 64-bit sum of the address and immediate patterns. -/
def compute_successors (inst : Instruction) : List Nat :=
  let next_addr := wrap64 (inst.addr + inst.len)
  match inst.opcode with
  | .BEQ | .BNE | .BLT | .BGE | .BLTU | .BGEU | .C_BEQZ | .C_BNEZ =>
    (match inst.imm with
     | some imm => [wrap64 (inst.addr + imm)]
     | none => []) ++ [next_addr]
  | .JAL | .C_J | .C_JAL =>
    (match inst.imm with
     | some imm =>
       (if inst.rd.getD 0 ≠ 0 then [next_addr] else []) ++ [wrap64 (inst.addr + imm)]
     | none => [])
  | .JALR | .C_JR | .C_JALR =>
    if inst.rd.getD 0 ≠ 0 then [next_addr] else []
  | .ECALL | .EBREAK | .C_EBREAK => [next_addr]
  | _ => [next_addr]

/-- Insertion into a `BTreeMap<u64, BasicBlock>`, modelled as a sorted
association list with unique keys. -/
def mpInsert (k : Nat) (v : BasicBlock) :
    List (Nat × BasicBlock) → List (Nat × BasicBlock)
  | [] => [(k, v)]
  | (k', v') :: rest =>
    if k < k' then (k, v) :: (k', v') :: rest
    else if k = k' then (k, v) :: rest
    else (k', v') :: mpInsert k v rest

/-- `BTreeMap::contains_key`. -/
def mpContains (m : List (Nat × BasicBlock)) (k : Nat) : Bool :=
  m.any (fun p => p.1 == k)

/-- `BTreeMap::get`. -/
def mpGet? (m : List (Nat × BasicBlock)) (k : Nat) : Option BasicBlock :=
  (m.find? (fun p => p.1 == k)).map (fun p => p.2)

/-- The open-or-extend phase of the `create_blocks` walk: at a boundary the
current block is finished and a fresh one opened; otherwise the instruction
is appended to the current block. -/
def cbOpen (boundaries : List Nat)
    (st : List (Nat × BasicBlock) × Option BasicBlock) (inst : Instruction) :
    List (Nat × BasicBlock) × Option BasicBlock :=
  if boundaries.contains inst.addr then
    ((match st.2 with
      | some b => mpInsert b.start_addr b st.1
      | none => st.1),
     some { start_addr := inst.addr, end_addr := wrap64 (inst.addr + inst.len),
            instructions := [inst], successors := [], is_function_entry := false })
  else
    match st.2 with
    | some b =>
      (st.1, some { b with instructions := b.instructions ++ [inst],
                           end_addr := wrap64 (inst.addr + inst.len) })
    | none => (st.1, none)

/-- One iteration of the instruction walk in `create_blocks`: open or extend
the current block, then record successors when the instruction is a
terminator. -/
def cbStep (boundaries : List Nat)
    (st : List (Nat × BasicBlock) × Option BasicBlock) (inst : Instruction) :
    List (Nat × BasicBlock) × Option BasicBlock :=
  let st' := cbOpen boundaries st inst
  if inst.opcode.is_terminator then
    match st'.2 with
    | some b => (st'.1, some { b with successors := compute_successors inst })
    | none => st'
  else st'

/-- The block map of `create_blocks` before the final fall-through pass. -/
def create_blocks_fold (instructions : List Instruction) (boundaries : List Nat) :
    List (Nat × BasicBlock) :=
  let st := instructions.foldl (cbStep boundaries) ([], none)
  match st.2 with
  | some b => mpInsert b.start_addr b st.1
  | none => st.1

/-- `create_blocks` from cfg.rs: the instruction walk followed by the pass
that adds a fall-through successor to every block with empty successors
whose `end_addr` starts another block. -/
def create_blocks (instructions : List Instruction) (boundaries : List Nat) :
    List (Nat × BasicBlock) :=
  let blocks := create_blocks_fold instructions boundaries
  blocks.map (fun p =>
    if p.2.successors.isEmpty ∧ mpContains blocks p.2.end_addr then
      (p.1, { p.2 with successors := [p.2.end_addr] })
    else p)

/-- The block map of `cfg::build` (phases 1 and 2; the function grouping of
phase 3 does not alter blocks). -/
def cfgBlocks (instructions : List Instruction) (entry : Nat) :
    List (Nat × BasicBlock) :=
  create_blocks instructions (find_block_boundaries instructions entry)

/-! Invariant: in every finished or in-progress block, if the last
instruction is a terminator then the stored successors are exactly
`compute_successors` of that terminator. -/

/-- The successor bookkeeping invariant of the `create_blocks` walk. -/
def lastSuccOK (b : BasicBlock) : Prop :=
  ∀ t, b.instructions.getLast? = some t → t.opcode.is_terminator = true →
    b.successors = compute_successors t

def cbInv (st : List (Nat × BasicBlock) × Option BasicBlock) : Prop :=
  (∀ p ∈ st.1, lastSuccOK p.2) ∧ (∀ b, st.2 = some b → lastSuccOK b)

theorem mem_mpInsert {k : Nat} {v : BasicBlock} :
    ∀ {m : List (Nat × BasicBlock)} {p}, p ∈ mpInsert k v m → p = (k, v) ∨ p ∈ m := by
  intro m
  induction m with
  | nil =>
    intro p hp
    rw [mpInsert] at hp
    rcases List.mem_singleton.mp hp with rfl
    exact Or.inl rfl
  | cons q rest ih =>
    intro p hp
    obtain ⟨k', v'⟩ := q
    rw [mpInsert] at hp
    by_cases h1 : k < k'
    · rw [if_pos h1] at hp
      rcases List.mem_cons.mp hp with rfl | hp
      · exact Or.inl rfl
      · exact Or.inr hp
    · rw [if_neg h1] at hp
      by_cases h2 : k = k'
      · rw [if_pos h2] at hp
        rcases List.mem_cons.mp hp with rfl | hp
        · exact Or.inl rfl
        · exact Or.inr (List.mem_cons_of_mem _ hp)
      · rw [if_neg h2] at hp
        rcases List.mem_cons.mp hp with rfl | hp
        · exact Or.inr (List.mem_cons_self _ _)
        · rcases ih hp with h | h
          · exact Or.inl h
          · exact Or.inr (List.mem_cons_of_mem _ h)

theorem cbOpen_fst_mem (boundaries : List Nat) (inst : Instruction)
    (st : List (Nat × BasicBlock) × Option BasicBlock) {p : Nat × BasicBlock}
    (hp : p ∈ (cbOpen boundaries st inst).1) :
    p ∈ st.1 ∨ ∃ b, st.2 = some b ∧ p = (b.start_addr, b) := by
  rw [cbOpen] at hp
  by_cases hb : boundaries.contains inst.addr
  · rw [if_pos hb] at hp
    cases hcur : st.2 with
    | none => rw [hcur] at hp; exact Or.inl hp
    | some b =>
      rw [hcur] at hp
      rcases mem_mpInsert hp with rfl | hp
      · exact Or.inr ⟨b, rfl, rfl⟩
      · exact Or.inl hp
  · rw [if_neg hb] at hp
    cases hcur : st.2 with
    | none => rw [hcur] at hp; exact Or.inl hp
    | some b => rw [hcur] at hp; exact Or.inl hp

theorem cbOpen_snd_last (boundaries : List Nat) (inst : Instruction)
    (st : List (Nat × BasicBlock) × Option BasicBlock) {b : BasicBlock}
    (hb2 : (cbOpen boundaries st inst).2 = some b) :
    b.instructions.getLast? = some inst := by
  rw [cbOpen] at hb2
  by_cases hb : boundaries.contains inst.addr
  · rw [if_pos hb] at hb2
    injection hb2 with h
    subst h
    rfl
  · rw [if_neg hb] at hb2
    cases hcur : st.2 with
    | none => rw [hcur] at hb2; cases hb2
    | some b0 =>
      rw [hcur] at hb2
      injection hb2 with h
      subst h
      simp [List.getLast?_concat]

theorem cbStep_inv (boundaries : List Nat) (inst : Instruction)
    (st : List (Nat × BasicBlock) × Option BasicBlock) (h : cbInv st) :
    cbInv (cbStep boundaries st inst) := by
  obtain ⟨hm, hc⟩ := h
  have hmem : ∀ p ∈ (cbOpen boundaries st inst).1, lastSuccOK p.2 := by
    intro p hp
    rcases cbOpen_fst_mem boundaries inst st hp with hp | ⟨b, hcur, rfl⟩
    · exact hm p hp
    · exact hc b hcur
  rw [cbStep]
  by_cases hterm : inst.opcode.is_terminator
  · rw [if_pos hterm]
    cases hcur : (cbOpen boundaries st inst).2 with
    | none => exact ⟨hmem, by intro b hb; rw [hcur] at hb; cases hb⟩
    | some b =>
      refine ⟨hmem, ?_⟩
      intro b' hb'
      injection hb' with h
      subst h
      intro t ht _
      have hlast := cbOpen_snd_last boundaries inst st hcur
      simp only [hlast] at ht
      injection ht with h
      subst h
      rfl
  · rw [if_neg hterm]
    refine ⟨hmem, ?_⟩
    intro b hb
    intro t ht hterm'
    have hlast := cbOpen_snd_last boundaries inst st hb
    rw [hlast] at ht
    injection ht with h
    subst h
    exact absurd hterm' (by simpa using hterm)

theorem foldl_preserves {α σ : Type} (f : σ → α → σ) (P : σ → Prop)
    (hstep : ∀ s a, P s → P (f s a)) :
    ∀ (l : List α) (s : σ), P s → P (l.foldl f s) := by
  intro l
  induction l with
  | nil => intro s hs; exact hs
  | cons a rest ih => intro s hs; exact ih (f s a) (hstep s a hs)

theorem create_blocks_fold_lastSucc (instructions : List Instruction)
    (boundaries : List Nat) :
    ∀ p ∈ create_blocks_fold instructions boundaries, lastSuccOK p.2 := by
  have hinv : cbInv (instructions.foldl (cbStep boundaries) ([], none)) := by
    apply foldl_preserves (cbStep boundaries) cbInv
    · intro s a hs
      exact cbStep_inv boundaries a s hs
    · constructor
      · intro p hp; cases hp
      · intro b hb; cases hb
  rw [create_blocks_fold]
  cases hcur : (instructions.foldl (cbStep boundaries) ([], none)).2 with
  | none =>
    intro p hp
    exact hinv.1 p hp
  | some b =>
    intro p hp
    rcases mem_mpInsert hp with rfl | hp
    · exact hinv.2 b hcur
    · exact hinv.1 p hp

theorem create_blocks_mem (instructions : List Instruction) (boundaries : List Nat)
    {p : Nat × BasicBlock} (hp : p ∈ create_blocks instructions boundaries) :
    ∃ q ∈ create_blocks_fold instructions boundaries,
      p = (if q.2.successors.isEmpty ∧
            mpContains (create_blocks_fold instructions boundaries) q.2.end_addr then
          (q.1, { q.2 with successors := [q.2.end_addr] })
        else q) := by
  rw [create_blocks] at hp
  obtain ⟨q, hq, hq2⟩ := List.mem_map.mp hp
  exact ⟨q, hq, hq2.symm⟩

theorem create_blocks_contains (instructions : List Instruction) (boundaries : List Nat)
    (k : Nat) :
    mpContains (create_blocks instructions boundaries) k =
      mpContains (create_blocks_fold instructions boundaries) k := by
  rw [create_blocks, mpContains, mpContains, List.any_map]
  congr 1
  funext p
  simp only [Function.comp_apply]
  split
  · rfl
  · rfl

theorem is_branch_cases {o : Opcode} (h : o.is_branch = true) :
    o = .BEQ ∨ o = .BNE ∨ o = .BLT ∨ o = .BGE ∨ o = .BLTU ∨ o = .BGEU ∨
      o = .C_BEQZ ∨ o = .C_BNEZ := by
  cases o <;> simp_all [Opcode.is_branch]

theorem is_terminator_of_branch {o : Opcode} (h : o.is_branch = true) :
    o.is_terminator = true := by
  rw [Opcode.is_terminator, h]
  rfl

theorem compute_successors_branch {t : Instruction} (hbr : t.opcode.is_branch = true)
    {i : Nat} (himm : t.imm = some i) :
    compute_successors t = [wrap64 (t.addr + i), wrap64 (t.addr + t.len)] := by
  rcases is_branch_cases hbr with hop | hop | hop | hop | hop | hop | hop | hop <;>
    simp [compute_successors, hop, himm]

theorem pass_keeps_instructions
    (blocks : List (Nat × BasicBlock)) (q : Nat × BasicBlock) :
    (if q.2.successors.isEmpty ∧ mpContains blocks q.2.end_addr then
        (q.1, { q.2 with successors := [q.2.end_addr] })
      else q).2.instructions = q.2.instructions := by
  split <;> rfl

/-- C6: in the finished CFG, every block whose terminator is a conditional
branch with a decoded immediate has successors exactly
`[pc + imm, pc + len]` (taken target then fall-through), where `pc` is the
branch's address and `len` its decoded length. -/
theorem c6_branch_successors (instructions : List Instruction) (entry : Nat)
    (p : Nat × BasicBlock) (hp : p ∈ cfgBlocks instructions entry)
    (t : Instruction) (ht : p.2.terminator = some t)
    (hbr : t.opcode.is_branch = true) (i : Nat) (himm : t.imm = some i) :
    p.2.successors = [wrap64 (t.addr + i), wrap64 (t.addr + t.len)] := by
  obtain ⟨q, hq, hpq⟩ := create_blocks_mem _ _ hp
  have hinstr : p.2.instructions = q.2.instructions := by
    rw [hpq]; exact pass_keeps_instructions _ _
  have hqlast : q.2.instructions.getLast? = some t := by
    rw [← hinstr]
    exact ht
  have hsq : q.2.successors = compute_successors t :=
    create_blocks_fold_lastSucc _ _ q hq t hqlast (is_terminator_of_branch hbr)
  have hcs := compute_successors_branch hbr himm
  have hne : q.2.successors.isEmpty = false := by
    rw [hsq, hcs]
    rfl
  have hpq' : p = q := by
    rw [hpq, if_neg]
    intro hcontra
    rw [hne] at hcontra
    exact absurd hcontra.1 (by simp)
  rw [hpq', hsq, hcs]

/-- The block produced for the single-instruction program `bne x5, x0, -4`
at 0x1000 (used by the C6 witness). -/
def c6Block : BasicBlock :=
  ⟨0x1000, 0x1004, [decode_32bit 0x1000 0xFE029EE3], [0xFFC, 0x1004], false⟩

/-- Witness for C6: a single `bne x5, x0, -4` instruction at 0x1000. -/
theorem c6_branch_successors_witness :
    c6Block.successors
      = [wrap64 ((decode_32bit 0x1000 0xFE029EE3).addr + (M64 - 4)),
         wrap64 ((decode_32bit 0x1000 0xFE029EE3).addr + (decode_32bit 0x1000 0xFE029EE3).len)] :=
  c6_branch_successors [decode_32bit 0x1000 0xFE029EE3] 0x1000 (0x1000, c6Block)
    (by decide) (decode_32bit 0x1000 0xFE029EE3) (by decide) (by decide) (M64 - 4) (by decide)

theorem is_return_inv {b : BasicBlock} (h : b.is_return = true) :
    ∃ t, b.terminator = some t ∧ (t.opcode = Opcode.JALR ∨ t.opcode = Opcode.C_JR) ∧
      t.rs1.getD 0 = 1 ∧ t.rd.getD 0 = 0 := by
  rw [BasicBlock.is_return] at h
  split at h
  next t heq =>
    split at h
    next hop =>
      obtain ⟨h1, h2⟩ := Bool.and_eq_true_iff.mp h
      exact ⟨t, heq, hop, by simpa using h1, by simpa using h2⟩
    next hop => cases h
  next heq => cases h

theorem compute_successors_return {t : Instruction}
    (hop : t.opcode = Opcode.JALR ∨ t.opcode = Opcode.C_JR) (hrd : t.rd.getD 0 = 0) :
    compute_successors t = [] := by
  rcases hop with hop | hop <;> simp [compute_successors, hop, hrd]

theorem is_terminator_of_return {o : Opcode}
    (hop : o = Opcode.JALR ∨ o = Opcode.C_JR) : o.is_terminator = true := by
  rcases hop with hop | hop <;> rw [hop] <;> rfl

/-- C4 (amended): a block ending in a return-shaped indirect jump (JALR or
C.JR with rs1 = x1, rd = x0) gets empty successors from
`compute_successors`, but the final fall-through pass of `create_blocks`
adds the block's `end_addr` as a successor whenever another block starts
there; the finished successors are therefore `[end_addr]` when a block
starts at `end_addr` and `[]` otherwise. -/
theorem c4_return_successors (instructions : List Instruction) (entry : Nat)
    (p : Nat × BasicBlock) (hp : p ∈ cfgBlocks instructions entry)
    (hret : p.2.is_return = true) :
    p.2.successors =
      (if mpContains (cfgBlocks instructions entry) p.2.end_addr then [p.2.end_addr]
       else []) := by
  obtain ⟨q, hq, hpq⟩ := create_blocks_mem _ _ hp
  obtain ⟨t, ht, hop, hrs1, hrd⟩ := is_return_inv hret
  have hinstr : p.2.instructions = q.2.instructions := by
    rw [hpq]; exact pass_keeps_instructions _ _
  have hqlast : q.2.instructions.getLast? = some t := by
    rw [← hinstr]; exact ht
  have hsq' : q.2.successors = [] := by
    rw [create_blocks_fold_lastSucc _ _ q hq t hqlast (is_terminator_of_return hop),
      compute_successors_return hop hrd]
  have hempty : q.2.successors.isEmpty = true := by rw [hsq']; rfl
  have hpend : p.2.end_addr = q.2.end_addr := by
    rw [hpq]; split <;> rfl
  have hcont : mpContains (cfgBlocks instructions entry) p.2.end_addr
      = mpContains (create_blocks_fold instructions
          (find_block_boundaries instructions entry)) q.2.end_addr := by
    rw [hpend]
    exact create_blocks_contains _ _ _
  cases hck : mpContains (create_blocks_fold instructions
      (find_block_boundaries instructions entry)) q.2.end_addr with
  | false =>
    have hpq' : p = q := by
      rw [hpq, if_neg]
      intro hcontra
      rw [hck] at hcontra
      exact absurd hcontra.2 (by simp)
    rw [hcont, hck, if_neg (by simp), hpq', hsq']
  | true =>
    have hpq' : p = (q.1, { q.2 with successors := [q.2.end_addr] }) := by
      rw [hpq, if_pos ⟨hempty, hck⟩]
    rw [hcont, hck, if_pos rfl, hpend, hpq']

/-- Counterexample to C4 as stated: for the program `ret; ecall` the block
headed by the return-shaped `jalr x0, x1, 0` has a block starting at its
`end_addr`, and the finished CFG records that fall-through address as a
successor instead of the empty list the claim requires. -/
theorem c4_counterexample :
    (mpGet? (cfgBlocks [decode_32bit 0x1000 0x00008067, decode_32bit 0x1004 0x00000073]
        0x1000) 0x1000).map (fun bb => (bb.is_return, bb.successors))
      = some (true, [0x1004]) := by decide

/-- The return block of the program `ret; ecall` (used by the C4 witness). -/
def c4Block : BasicBlock :=
  ⟨0x1000, 0x1004, [decode_32bit 0x1000 0x00008067], [0x1004], false⟩

/-- Witness for the amended C4 on the program `ret; ecall`. -/
theorem c4_return_successors_witness :
    c4Block.successors
      = (if mpContains (cfgBlocks [decode_32bit 0x1000 0x00008067,
            decode_32bit 0x1004 0x00000073] 0x1000) c4Block.end_addr
          then [c4Block.end_addr] else []) :=
  c4_return_successors [decode_32bit 0x1000 0x00008067, decode_32bit 0x1004 0x00000073]
    0x1000 (0x1000, c4Block) (by decide) (by decide)

/-! ## translate.rs: the Wasm IR -/

/-- Wasm instruction IR (`enum WasmInst` in translate.rs).  Numeric payloads
are bit patterns: `I32Const` a `u32` pattern, `I64Const` a `u64` pattern,
`F32Const`/`F64Const` the raw bit patterns of the float payloads. -/
inductive WasmInst where
  | Block (label : Nat) | Loop (label : Nat) | End
  | Br (label : Nat) | BrIf (label : Nat)
  | BrTable (labels : List Nat) (dflt : Nat)
  | Return | Call (func_idx : Nat) | CallIndirect (type_idx : Nat)
  | LocalGet (idx : Nat) | LocalSet (idx : Nat) | LocalTee (idx : Nat)
  | I32Const (value : Nat) | I64Const (value : Nat)
  | I32Load (offset : Nat) | I64Load (offset : Nat)
  | I32Load8S (offset : Nat) | I32Load8U (offset : Nat)
  | I32Load16S (offset : Nat) | I32Load16U (offset : Nat)
  | I64Load8S (offset : Nat) | I64Load8U (offset : Nat)
  | I64Load16S (offset : Nat) | I64Load16U (offset : Nat)
  | I64Load32S (offset : Nat) | I64Load32U (offset : Nat)
  | I32Store (offset : Nat) | I64Store (offset : Nat)
  | I32Store8 (offset : Nat) | I32Store16 (offset : Nat)
  | I64Store8 (offset : Nat) | I64Store16 (offset : Nat) | I64Store32 (offset : Nat)
  | I64Add | I64Sub | I64Mul | I64DivS | I64DivU | I64RemS | I64RemU
  | I64And | I64Or | I64Xor | I64Shl | I64ShrS | I64ShrU
  | I64Rotl | I64Rotr | I64Clz | I64Ctz | I64Popcnt
  | I64Eqz | I64Eq | I64Ne | I64LtS | I64LtU | I64GtS | I64GtU
  | I64LeS | I64LeU | I64GeS | I64GeU
  | I32Add | I32Sub | I32Mul | I32DivS | I32DivU | I32RemS | I32RemU
  | I32And | I32Or | I32Xor | I32Shl | I32ShrS | I32ShrU
  | I32Eqz | I32Eq | I32Ne | I32LtS | I32LtU | I32GtS | I32GtU
  | I32LeS | I32LeU | I32GeS | I32GeU
  | I32WrapI64 | I64ExtendI32S | I64ExtendI32U
  | F32Load (offset : Nat) | F32Store (offset : Nat) | F32Const (value : Nat)
  | F32Add | F32Sub | F32Mul | F32Div | F32Sqrt | F32Neg | F32Abs
  | F32Ceil | F32Floor | F32Trunc | F32Nearest
  | F32Eq | F32Ne | F32Lt | F32Gt | F32Le | F32Ge
  | F32Min | F32Max | F32Copysign
  | F64Load (offset : Nat) | F64Store (offset : Nat) | F64Const (value : Nat)
  | F64Add | F64Sub | F64Mul | F64Div | F64Sqrt | F64Neg | F64Abs
  | F64Ceil | F64Floor | F64Trunc | F64Nearest
  | F64Eq | F64Ne | F64Lt | F64Gt | F64Le | F64Ge
  | F64Min | F64Max | F64Copysign
  | F32ConvertI32S | F32ConvertI32U | F32ConvertI64S | F32ConvertI64U
  | F64ConvertI32S | F64ConvertI32U | F64ConvertI64S | F64ConvertI64U
  | I32TruncF32S | I32TruncF32U | I32TruncF64S | I32TruncF64U
  | I64TruncF32S | I64TruncF32U | I64TruncF64S | I64TruncF64U
  | F32DemoteF64 | F64PromoteF32
  | F32ReinterpretI32 | F64ReinterpretI64 | I32ReinterpretF32 | I64ReinterpretF64
  | Drop | Select | Unreachable
  | Comment (text : String)

/-- A generated Wasm function (`struct WasmFunction` in translate.rs). -/
structure WasmFunction where
  name : String
  block_addr : Nat
  body : List WasmInst
  num_locals : Nat

/-! ## translate.rs: the peephole optimizer -/

/-- `fold_i64_binop` from translate.rs, over `i64` bit patterns. -/
def fold_i64_binop (op : WasmInst) (lhs rhs : Nat) : Option Nat :=
  match op with
  | .I64Add => some (wrap64 (lhs + rhs))
  | .I64Sub => some (wrap64 (lhs + M64 - rhs))
  | .I64And => some (lhs &&& rhs)
  | .I64Or => some (lhs ||| rhs)
  | .I64Xor => some (lhs ^^^ rhs)
  | .I64Shl => some (wrap64 (lhs <<< (wrap32 rhs &&& 63)))
  | .I64ShrS => some (i64pat ((toI64 lhs) >>> (wrap32 rhs &&& 63)))
  | .I64ShrU => some (lhs >>> (wrap32 rhs &&& 63))
  | _ => none

/-- `fold_i32_binop` from translate.rs, over `i32` bit patterns. -/
def fold_i32_binop (op : WasmInst) (lhs rhs : Nat) : Option Nat :=
  match op with
  | .I32Add => some (wrap32 (lhs + rhs))
  | .I32Sub => some (wrap32 (lhs + M32 - rhs))
  | .I32And => some (lhs &&& rhs)
  | .I32Or => some (lhs ||| rhs)
  | .I32Xor => some (lhs ^^^ rhs)
  | .I32Shl => some (wrap32 (lhs <<< (wrap32 rhs &&& 31)))
  | .I32ShrS => some (i32pat ((toI32 lhs) >>> (wrap32 rhs &&& 31)))
  | .I32ShrU => some (lhs >>> (wrap32 rhs &&& 31))
  | _ => none

/-- `get_or_alloc_i64_temp` from `forward_i64_store_loads`. -/
def getOrAllocTemp : Option Nat → Nat → Nat × Option Nat × Nat
  | some idx, next => (idx, some idx, next)
  | none, next => (next, some next, next + 1)

/-- The scan of `forward_i64_store_loads` (store/reload forwarding through a
temp local); returns (out, changes, temp_local, next_local).  The fuel
counts loop iterations (one per scan position); `body.length` suffices. -/
def forwardAux : Nat → List WasmInst → Option Nat → Nat →
    List WasmInst × Nat × Option Nat × Nat
  | 0, l, temp, next => (l, 0, temp, next)
  | _ + 1, [], temp, next => ([], 0, temp, next)
  | fuel + 1, .I64Store so :: .LocalGet 0 :: .I64Load lo :: rest, temp, next =>
    if lo = so then
      let a := getOrAllocTemp temp next
      let r := forwardAux fuel rest a.2.1 a.2.2
      (.LocalTee a.1 :: .I64Store so :: .LocalGet a.1 :: r.1, r.2.1 + 1, r.2.2)
    else
      let r := forwardAux fuel (.LocalGet 0 :: .I64Load lo :: rest) temp next
      (.I64Store so :: r.1, r.2)
  | fuel + 1, .I64Store so :: .LocalGet 0 :: .LocalGet 0 :: .I64Load lo :: rest, temp, next =>
    if lo = so then
      let a := getOrAllocTemp temp next
      let r := forwardAux fuel rest a.2.1 a.2.2
      (.LocalTee a.1 :: .I64Store so :: .LocalGet 0 :: .LocalGet a.1 :: r.1,
       r.2.1 + 1, r.2.2)
    else
      let r := forwardAux fuel (.LocalGet 0 :: .LocalGet 0 :: .I64Load lo :: rest) temp next
      (.I64Store so :: r.1, r.2)
  | fuel + 1, inst :: rest, temp, next =>
    let r := forwardAux fuel rest temp next
    (inst :: r.1, r.2)

/-- `forward_i64_store_loads` from translate.rs: (out, changes, next_local). -/
def forward_i64_store_loads (body : List WasmInst) (next_local : Nat) :
    List WasmInst × Nat × Nat :=
  let r := forwardAux body.length body none next_local
  (r.1, r.2.1, r.2.2.2)

/-- The scan of `fold_local_set_get` (`local.set i; local.get i` to
`local.tee i`); fuel counts scan positions. -/
def foldSetGetAux : Nat → List WasmInst → List WasmInst × Nat
  | 0, l => (l, 0)
  | _ + 1, [] => ([], 0)
  | fuel + 1, .LocalSet si :: .LocalGet gi :: rest =>
    if si = gi then
      let r := foldSetGetAux fuel rest
      (.LocalTee si :: r.1, r.2 + 1)
    else
      let r := foldSetGetAux fuel (.LocalGet gi :: rest)
      (.LocalSet si :: r.1, r.2)
  | fuel + 1, inst :: rest =>
    let r := foldSetGetAux fuel rest
    (inst :: r.1, r.2)

/-- `fold_local_set_get` from translate.rs. -/
def fold_local_set_get (body : List WasmInst) : List WasmInst × Nat :=
  foldSetGetAux body.length body

/-- The scan of `fold_integer_constants` (const/const/binop folding); fuel
counts scan positions. -/
def foldConstAux : Nat → List WasmInst → List WasmInst × Nat
  | 0, l => (l, 0)
  | _ + 1, [] => ([], 0)
  | fuel + 1, .I64Const a :: .I64Const b :: op :: rest =>
    (match fold_i64_binop op a b with
     | some v =>
       let r := foldConstAux fuel rest
       (.I64Const v :: r.1, r.2 + 1)
     | none =>
       let r := foldConstAux fuel (.I64Const b :: op :: rest)
       (.I64Const a :: r.1, r.2))
  | fuel + 1, .I32Const a :: .I32Const b :: op :: rest =>
    (match fold_i32_binop op a b with
     | some v =>
       let r := foldConstAux fuel rest
       (.I32Const v :: r.1, r.2 + 1)
     | none =>
       let r := foldConstAux fuel (.I32Const b :: op :: rest)
       (.I32Const a :: r.1, r.2))
  | fuel + 1, inst :: rest =>
    let r := foldConstAux fuel rest
    (inst :: r.1, r.2)

/-- `fold_integer_constants` from translate.rs. -/
def fold_integer_constants (body : List WasmInst) : List WasmInst × Nat :=
  foldConstAux body.length body

/-- `is_cacheable_gpr_offset` from `cache_gpr_i64_values`: x1..x31 slots only
(never offset 0). -/
def is_cacheable_gpr_offset (offset : Nat) : Bool :=
  decide (offset ≠ 0) && decide (offset < 32 * 8) && decide (offset % 8 = 0)

/-- Lookup in the `offset_to_local` HashMap (association list). -/
def mapGet (m : List (Nat × Nat)) (k : Nat) : Option Nat :=
  (m.find? (fun p => p.1 == k)).map (fun p => p.2)

/-- `HashMap::entry(k).or_insert(v)`. -/
def mapOrInsert (m : List (Nat × Nat)) (k v : Nat) : List (Nat × Nat) :=
  match mapGet m k with
  | some _ => m
  | none => (k, v) :: m

/-- `get_or_alloc_local_for_offset` from `cache_gpr_i64_values`. -/
def getOrAllocForOffset (m : List (Nat × Nat)) (k next : Nat) :
    Nat × List (Nat × Nat) × Nat :=
  match mapGet m k with
  | some idx => (idx, m, next)
  | none => (next, (k, next) :: m, next + 1)

/-- The `preceding_tee` check of `cache_gpr_i64_values`: the index of a
`local.tee` at `body[i-1]`, if any. -/
def precedingTee : Option WasmInst → Option Nat
  | some (.LocalTee idx) => some idx
  | _ => none

/-- The scan of `cache_gpr_i64_values`; `prev` is the previous element of the
input body (`body[i-1]`), which the source inspects for a preceding
`local.tee`; fuel counts scan positions.  Returns
(out, changes, offset_to_local, next_local). -/
def cacheAux : Nat → List WasmInst → Option WasmInst → List (Nat × Nat) → Nat →
    List WasmInst × Nat × List (Nat × Nat) × Nat
  | 0, l, _, m, next => (l, 0, m, next)
  | _ + 1, [], _, m, next => ([], 0, m, next)
  | fuel + 1, .LocalGet 0 :: .I64Load off :: rest, _prev, m, next =>
    if is_cacheable_gpr_offset off then
      match mapGet m off with
      | some l =>
        let r := cacheAux fuel rest (some (.I64Load off)) m next
        (.LocalGet l :: r.1, r.2.1 + 1, r.2.2)
      | none =>
        let r := cacheAux fuel (.I64Load off :: rest) (some (.LocalGet 0)) m next
        (.LocalGet 0 :: r.1, r.2)
    else
      let r := cacheAux fuel (.I64Load off :: rest) (some (.LocalGet 0)) m next
      (.LocalGet 0 :: r.1, r.2)
  | fuel + 1, .I64Store off :: rest, prev, m, next =>
    if is_cacheable_gpr_offset off then
      match precedingTee prev with
      | some idx =>
        let r := cacheAux fuel rest (some (.I64Store off)) (mapOrInsert m off idx) next
        (.I64Store off :: r.1, r.2)
      | none =>
        let a := getOrAllocForOffset m off next
        let r := cacheAux fuel rest (some (.I64Store off)) a.2.1 a.2.2
        (.LocalTee a.1 :: .I64Store off :: r.1, r.2.1 + 1, r.2.2)
    else
      let r := cacheAux fuel rest (some (.I64Store off)) m next
      (.I64Store off :: r.1, r.2)
  | fuel + 1, inst :: rest, _, m, next =>
    let r := cacheAux fuel rest (some inst) m next
    (inst :: r.1, r.2)

/-- `cache_gpr_i64_values` from translate.rs: (out, changes, next_local). -/
def cache_gpr_i64_values (body : List WasmInst) (next_local : Nat) :
    List WasmInst × Nat × Nat :=
  let r := cacheAux body.length body none [] next_local
  (r.1, r.2.1, r.2.2.2)

/-- Is this a `Comment` (stripped before optimization)? -/
def isComment : WasmInst → Bool
  | .Comment _ => true
  | _ => false

/-- One iteration of the fixed-point loop in `optimize_function`:
runs the four passes in order, returning (body, next_local, changed). -/
def optPasses (body : List WasmInst) (next : Nat) : List WasmInst × Nat × Bool :=
  let f := forward_i64_store_loads body next
  let g := fold_local_set_get f.1
  let h := cache_gpr_i64_values g.1 f.2.2
  let k := fold_integer_constants h.1
  (k.1, h.2.2,
   decide (0 < f.2.1) || decide (0 < g.2) || decide (0 < h.2.1) || decide (0 < k.2))

/-- The `loop { ... if !changed break }` of `optimize_function`, with explicit
fuel standing in for the unbounded Rust loop; `none` means the fuel ran out
before the fixed point was reached. -/
def optLoop : Nat → List WasmInst → Nat → Option (List WasmInst × Nat)
  | 0, _, _ => none
  | fuel + 1, body, next =>
    let r := optPasses body next
    if r.2.2 then optLoop fuel r.1 r.2.1 else some (r.1, r.2.1)

/-- `optimize_function` from translate.rs: strip comments, then run the four
peephole passes to a fixed point. -/
def optimize_function (fuel : Nat) (f : WasmFunction) : Option WasmFunction :=
  let body := f.body.filter (fun i => !isComment i)
  (optLoop fuel body f.num_locals).map
    (fun r => { f with body := r.1, num_locals := r.2 })

/-! Fixed-point facts about the optimizer passes: a pass that reports zero
changes returns its input unchanged and allocates no locals. -/

set_option maxHeartbeats 2000000 in
theorem forwardAux_zero : ∀ fuel l temp next,
    (forwardAux fuel l temp next).2.1 = 0 →
    forwardAux fuel l temp next = (l, 0, temp, next) := by
  intro fuel l temp next
  induction fuel, l, temp, next using forwardAux.induct with
  | case1 l temp next =>
    intro _
    rfl
  | case2 fuel temp next =>
    intro _
    rfl
  | case3 fuel lo rest temp next a ih =>
    intro h0
    simp [forwardAux] at h0
  | case4 fuel so lo rest temp next hne ih =>
    intro h0
    simp only [forwardAux, if_neg hne] at h0 ⊢
    rw [ih h0]
  | case5 fuel lo rest temp next a ih =>
    intro h0
    simp [forwardAux] at h0
  | case6 fuel so lo rest temp next hne ih =>
    intro h0
    simp only [forwardAux, if_neg hne] at h0 ⊢
    rw [ih h0]
  | case7 fuel inst rest temp next hnotA hnotB ih =>
    intro h0
    have he := forwardAux.eq_5 temp next fuel inst rest hnotA hnotB
    rw [Nat.succ_eq_add_one] at he
    rw [he] at h0 ⊢
    simp only at h0
    rw [ih h0]

set_option maxHeartbeats 2000000 in
theorem foldSetGetAux_zero : ∀ fuel l,
    (foldSetGetAux fuel l).2 = 0 → foldSetGetAux fuel l = (l, 0) := by
  intro fuel l
  induction fuel, l using foldSetGetAux.induct with
  | case1 l =>
    intro _
    rfl
  | case2 fuel =>
    intro _
    rfl
  | case3 fuel si rest ih =>
    intro h0
    simp [foldSetGetAux] at h0
  | case4 fuel si gi rest hne ih =>
    intro h0
    simp only [foldSetGetAux, if_neg hne] at h0 ⊢
    rw [ih h0]
  | case5 fuel inst rest hnot ih =>
    intro h0
    have he := foldSetGetAux.eq_4 fuel inst rest hnot
    rw [Nat.succ_eq_add_one] at he
    rw [he] at h0 ⊢
    simp only at h0
    rw [ih h0]

set_option maxHeartbeats 2000000 in
theorem foldConstAux_zero : ∀ fuel l,
    (foldConstAux fuel l).2 = 0 → foldConstAux fuel l = (l, 0) := by
  intro fuel l
  induction fuel, l using foldConstAux.induct with
  | case1 l =>
    intro _
    rfl
  | case2 fuel =>
    intro _
    rfl
  | case3 fuel a b op rest v hfold ih =>
    intro h0
    simp [foldConstAux, hfold] at h0
  | case4 fuel a b op rest hfold ih =>
    intro h0
    simp only [foldConstAux, hfold] at h0 ⊢
    rw [ih h0]
  | case5 fuel a b op rest v hfold ih =>
    intro h0
    simp [foldConstAux, hfold] at h0
  | case6 fuel a b op rest hfold ih =>
    intro h0
    simp only [foldConstAux, hfold] at h0 ⊢
    rw [ih h0]
  | case7 fuel inst rest hnotA hnotB ih =>
    intro h0
    have he := foldConstAux.eq_5 fuel inst rest hnotA hnotB
    rw [Nat.succ_eq_add_one] at he
    rw [he] at h0 ⊢
    simp only at h0
    rw [ih h0]

set_option maxHeartbeats 2000000 in
theorem cacheAux_zero : ∀ fuel l prev m next,
    (cacheAux fuel l prev m next).2.1 = 0 →
    (cacheAux fuel l prev m next).1 = l ∧
      (cacheAux fuel l prev m next).2.2.2 = next := by
  intro fuel l prev m next
  induction fuel, l, prev, m, next using cacheAux.induct with
  | case1 l prev m next =>
    intro _
    exact ⟨rfl, rfl⟩
  | case2 fuel prev m next =>
    intro _
    exact ⟨rfl, rfl⟩
  | case3 fuel off rest prev m next hc lidx hget ih =>
    intro h0
    simp [cacheAux, hc, hget] at h0
  | case4 fuel off rest prev m next hc hget ih =>
    intro h0
    simp only [cacheAux, hc, hget, if_true] at h0 ⊢
    obtain ⟨e1, e2⟩ := ih h0
    exact ⟨by rw [e1], e2⟩
  | case5 fuel off rest prev m next hc ih =>
    intro h0
    simp only [cacheAux, hc, Bool.false_eq_true, if_false] at h0 ⊢
    obtain ⟨e1, e2⟩ := ih h0
    exact ⟨by rw [e1], e2⟩
  | case6 fuel off rest prev m next hc idx hpt ih =>
    intro h0
    simp only [cacheAux, hc, hpt, if_true] at h0 ⊢
    obtain ⟨e1, e2⟩ := ih h0
    exact ⟨by rw [e1], e2⟩
  | case7 fuel off rest prev m next hc hpt ih =>
    intro h0
    simp [cacheAux, hc, hpt] at h0
  | case8 fuel off rest prev m next hc ih =>
    intro h0
    simp only [cacheAux, hc, Bool.false_eq_true, if_false] at h0 ⊢
    obtain ⟨e1, e2⟩ := ih h0
    exact ⟨by rw [e1], e2⟩
  | case9 fuel inst rest prev m next hnotA hnotB ih =>
    intro h0
    have he := cacheAux.eq_5 prev m next fuel inst rest hnotA hnotB
    rw [Nat.succ_eq_add_one] at he
    rw [he] at h0 ⊢
    simp only at h0
    obtain ⟨e1, e2⟩ := ih h0
    exact ⟨by rw [e1], e2⟩

/-! Comment-freedom: `optimize_function` strips `Comment` nodes up front, and
no pass reintroduces them. -/

/-- No `Comment` node occurs in the list. -/
def noComm (l : List WasmInst) : Prop := ∀ x ∈ l, isComment x = false

theorem noComm_cons {a : WasmInst} {l : List WasmInst} :
    noComm (a :: l) ↔ isComment a = false ∧ noComm l := by
  simp [noComm]

set_option maxHeartbeats 2000000 in
theorem forwardAux_noComm : ∀ fuel l temp next, noComm l →
    noComm (forwardAux fuel l temp next).1 := by
  intro fuel l temp next
  induction fuel, l, temp, next using forwardAux.induct with
  | case1 l temp next => exact fun h => h
  | case2 fuel temp next => exact fun _ x hx => absurd hx (List.not_mem_nil x)
  | case3 fuel lo rest temp next a ih =>
    intro h
    rw [noComm_cons, noComm_cons, noComm_cons] at h
    simp only [forwardAux]
    rw [if_pos trivial]
    exact noComm_cons.mpr ⟨rfl, noComm_cons.mpr ⟨rfl, noComm_cons.mpr ⟨rfl, ih h.2.2.2⟩⟩⟩
  | case4 fuel so lo rest temp next hne ih =>
    intro h
    rw [noComm_cons] at h
    simp only [forwardAux, if_neg hne]
    exact noComm_cons.mpr ⟨h.1, ih h.2⟩
  | case5 fuel lo rest temp next a ih =>
    intro h
    rw [noComm_cons, noComm_cons, noComm_cons, noComm_cons] at h
    simp only [forwardAux]
    rw [if_pos trivial]
    exact noComm_cons.mpr ⟨rfl, noComm_cons.mpr ⟨rfl,
      noComm_cons.mpr ⟨rfl, noComm_cons.mpr ⟨rfl, ih h.2.2.2.2⟩⟩⟩⟩
  | case6 fuel so lo rest temp next hne ih =>
    intro h
    rw [noComm_cons] at h
    simp only [forwardAux, if_neg hne]
    exact noComm_cons.mpr ⟨h.1, ih h.2⟩
  | case7 fuel inst rest temp next hnotA hnotB ih =>
    intro h
    rw [noComm_cons] at h
    have he := forwardAux.eq_5 temp next fuel inst rest hnotA hnotB
    rw [Nat.succ_eq_add_one] at he
    rw [he]
    exact noComm_cons.mpr ⟨h.1, ih h.2⟩

set_option maxHeartbeats 2000000 in
theorem foldSetGetAux_noComm : ∀ fuel l, noComm l →
    noComm (foldSetGetAux fuel l).1 := by
  intro fuel l
  induction fuel, l using foldSetGetAux.induct with
  | case1 l => exact fun h => h
  | case2 fuel => exact fun _ x hx => absurd hx (List.not_mem_nil x)
  | case3 fuel si rest ih =>
    intro h
    rw [noComm_cons, noComm_cons] at h
    simp only [foldSetGetAux]
    rw [if_pos trivial]
    exact noComm_cons.mpr ⟨rfl, ih h.2.2⟩
  | case4 fuel si gi rest hne ih =>
    intro h
    rw [noComm_cons] at h
    simp only [foldSetGetAux, if_neg hne]
    exact noComm_cons.mpr ⟨h.1, ih h.2⟩
  | case5 fuel inst rest hnot ih =>
    intro h
    rw [noComm_cons] at h
    have he := foldSetGetAux.eq_4 fuel inst rest hnot
    rw [Nat.succ_eq_add_one] at he
    rw [he]
    exact noComm_cons.mpr ⟨h.1, ih h.2⟩

set_option maxHeartbeats 2000000 in
theorem foldConstAux_noComm : ∀ fuel l, noComm l →
    noComm (foldConstAux fuel l).1 := by
  intro fuel l
  induction fuel, l using foldConstAux.induct with
  | case1 l => exact fun h => h
  | case2 fuel => exact fun _ x hx => absurd hx (List.not_mem_nil x)
  | case3 fuel a b op rest v hfold ih =>
    intro h
    rw [noComm_cons, noComm_cons, noComm_cons] at h
    simp only [foldConstAux, hfold]
    exact noComm_cons.mpr ⟨rfl, ih h.2.2.2⟩
  | case4 fuel a b op rest hfold ih =>
    intro h
    rw [noComm_cons] at h
    simp only [foldConstAux, hfold]
    exact noComm_cons.mpr ⟨h.1, ih h.2⟩
  | case5 fuel a b op rest v hfold ih =>
    intro h
    rw [noComm_cons, noComm_cons, noComm_cons] at h
    simp only [foldConstAux, hfold]
    exact noComm_cons.mpr ⟨rfl, ih h.2.2.2⟩
  | case6 fuel a b op rest hfold ih =>
    intro h
    rw [noComm_cons] at h
    simp only [foldConstAux, hfold]
    exact noComm_cons.mpr ⟨h.1, ih h.2⟩
  | case7 fuel inst rest hnotA hnotB ih =>
    intro h
    rw [noComm_cons] at h
    have he := foldConstAux.eq_5 fuel inst rest hnotA hnotB
    rw [Nat.succ_eq_add_one] at he
    rw [he]
    exact noComm_cons.mpr ⟨h.1, ih h.2⟩

set_option maxHeartbeats 2000000 in
theorem cacheAux_noComm : ∀ fuel l prev m next, noComm l →
    noComm (cacheAux fuel l prev m next).1 := by
  intro fuel l prev m next
  induction fuel, l, prev, m, next using cacheAux.induct with
  | case1 l prev m next => exact fun h => h
  | case2 fuel prev m next => exact fun _ x hx => absurd hx (List.not_mem_nil x)
  | case3 fuel off rest prev m next hc lidx hget ih =>
    intro h
    rw [noComm_cons, noComm_cons] at h
    simp only [cacheAux, hc, hget, if_true]
    exact noComm_cons.mpr ⟨rfl, ih h.2.2⟩
  | case4 fuel off rest prev m next hc hget ih =>
    intro h
    rw [noComm_cons] at h
    simp only [cacheAux, hc, hget, if_true]
    exact noComm_cons.mpr ⟨h.1, ih h.2⟩
  | case5 fuel off rest prev m next hc ih =>
    intro h
    rw [noComm_cons] at h
    simp only [cacheAux, hc, Bool.false_eq_true, if_false]
    exact noComm_cons.mpr ⟨h.1, ih h.2⟩
  | case6 fuel off rest prev m next hc idx hpt ih =>
    intro h
    rw [noComm_cons] at h
    simp only [cacheAux, hc, hpt, if_true]
    exact noComm_cons.mpr ⟨h.1, ih h.2⟩
  | case7 fuel off rest prev m next hc hpt a ih =>
    intro h
    rw [noComm_cons] at h
    simp only [cacheAux, hc, hpt, if_true]
    exact noComm_cons.mpr ⟨rfl, noComm_cons.mpr ⟨h.1, ih h.2⟩⟩
  | case8 fuel off rest prev m next hc ih =>
    intro h
    rw [noComm_cons] at h
    simp only [cacheAux, hc, Bool.false_eq_true, if_false]
    exact noComm_cons.mpr ⟨h.1, ih h.2⟩
  | case9 fuel inst rest prev m next hnotA hnotB ih =>
    intro h
    rw [noComm_cons] at h
    have he := cacheAux.eq_5 prev m next fuel inst rest hnotA hnotB
    rw [Nat.succ_eq_add_one] at he
    rw [he]
    exact noComm_cons.mpr ⟨h.1, ih h.2⟩

theorem optPasses_noComm (body : List WasmInst) (next : Nat) (h : noComm body) :
    noComm (optPasses body next).1 :=
  foldConstAux_noComm _ _ (cacheAux_noComm _ _ _ _ _
    (foldSetGetAux_noComm _ _ (forwardAux_noComm _ _ _ _ h)))

theorem optLoop_noComm : ∀ fuel body next b n, noComm body →
    optLoop fuel body next = some (b, n) → noComm b := by
  intro fuel
  induction fuel with
  | zero =>
    intro body next b n _ he
    simp [optLoop] at he
  | succ fuel ih =>
    intro body next b n h he
    simp only [optLoop] at he
    by_cases hc : (optPasses body next).2.2 = true
    · rw [if_pos hc] at he
      exact ih _ _ _ _ (optPasses_noComm body next h) he
    · rw [if_neg hc] at he
      have h2 := Option.some.inj he
      have hb : (optPasses body next).1 = b := congrArg Prod.fst h2
      rw [← hb]
      exact optPasses_noComm body next h

/-! Fixed-point structure of the optimizer loop. -/

theorem optPasses_fixed (body : List WasmInst) (next : Nat)
    (h : (optPasses body next).2.2 = false) :
    optPasses body next = (body, next, false) ∧
      (foldConstAux body.length body).2 = 0 := by
  simp only [optPasses, Bool.or_eq_false_iff, decide_eq_false_iff_not,
    Nat.not_lt, Nat.le_zero] at h
  obtain ⟨⟨⟨hf, hg⟩, hh⟩, hk⟩ := h
  have Hf : forward_i64_store_loads body next = (body, 0, next) := by
    have hz := forwardAux_zero body.length body none next hf
    simp only [forward_i64_store_loads, hz]
  simp only [Hf] at hg hh hk
  have Hg : fold_local_set_get body = (body, 0) := foldSetGetAux_zero body.length body hg
  simp only [Hg] at hh hk
  obtain ⟨e1, e2⟩ := cacheAux_zero body.length body none [] next hh
  have Hh : cache_gpr_i64_values body next = (body, 0, next) := by
    simp only [cache_gpr_i64_values] at hh ⊢
    simp only [e1, e2, hh]
  simp only [Hh] at hk
  have Hk : fold_integer_constants body = (body, 0) := foldConstAux_zero body.length body hk
  constructor
  · simp [optPasses, Hf, Hg, Hh, Hk]
  · exact hk

theorem optLoop_fixed : ∀ fuel body next b n,
    optLoop fuel body next = some (b, n) →
    optPasses b n = (b, n, false) ∧ (foldConstAux b.length b).2 = 0 := by
  intro fuel
  induction fuel with
  | zero =>
    intro body next b n he
    simp [optLoop] at he
  | succ fuel ih =>
    intro body next b n he
    simp only [optLoop] at he
    by_cases hc : (optPasses body next).2.2 = true
    · rw [if_pos hc] at he
      exact ih _ _ _ _ he
    · rw [if_neg hc] at he
      have hcf : (optPasses body next).2.2 = false := by
        simpa using hc
      have hfix := optPasses_fixed body next hcf
      have h2 := Option.some.inj he
      rw [hfix.1] at h2
      have hb : body = b := congrArg Prod.fst h2
      have hn : next = n := congrArg Prod.snd h2
      rw [← hb, ← hn]
      exact hfix

theorem optLoop_of_fixed (body : List WasmInst) (next : Nat)
    (h : optPasses body next = (body, next, false)) :
    ∀ fuel, 0 < fuel → optLoop fuel body next = some (body, next) := by
  intro fuel hf
  cases fuel with
  | zero => exact absurd hf (by simp)
  | succ fuel => simp [optLoop, h]

/-- Input function for the optimizer fixed-point witness: one comment plus a
foldable constant add. -/
def f0c8 : WasmFunction := ⟨"f", 0, [.Comment "x", .I64Const 1, .I64Const 2, .I64Add], 4⟩

/-- Expected optimizer output for `f0c8`. -/
def g0c8 : WasmFunction := ⟨"f", 0, [.I64Const 3], 4⟩

/-- Input function for the constant-folding residue witness: a const/const/mul
triple that `fold_i64_binop` does not fold. -/
def f0c9 : WasmFunction := ⟨"g", 0, [.I64Const 1, .I64Const 2, .I64Mul], 4⟩

/-- C8: the peephole optimizer is idempotent — whenever `optimize_function`
returns an optimized function `g`, running `optimize_function` again on `g`
(with any positive fuel) returns `g` itself, unchanged in both body and
`num_locals`. -/
theorem c8_optimizer_idempotent (fuel fuel2 : Nat) (f g : WasmFunction)
    (h : optimize_function fuel f = some g) (h2 : 0 < fuel2) :
    optimize_function fuel2 g = some g := by
  simp only [optimize_function, Option.map_eq_some'] at h
  obtain ⟨⟨b, n⟩, hr, hg⟩ := h
  have hfix := (optLoop_fixed _ _ _ _ _ hr).1
  have hnc : noComm b := by
    refine optLoop_noComm _ _ _ _ _ ?_ hr
    intro x hx
    have := List.of_mem_filter hx
    simpa using this
  have hfilter : b.filter (fun i => !isComment i) = b := by
    rw [List.filter_eq_self]
    intro x hx
    simp [hnc x hx]
  subst hg
  simp only [optimize_function]
  rw [hfilter, optLoop_of_fixed b n hfix fuel2 h2]
  rfl

/-- Witness for C8 at a concrete function: `optimize_function` folds
`i64.const 1; i64.const 2; i64.add` to `i64.const 3` and strips the comment,
and re-optimizing the result returns it unchanged. -/
theorem c8_optimizer_idempotent_witness :
    optimize_function 2 f0c8 = some g0c8 ∧ 0 < 1 ∧
      optimize_function 1 g0c8 = some g0c8 :=
  ⟨rfl, Nat.one_pos, c8_optimizer_idempotent 2 1 f0c8 g0c8 rfl Nat.one_pos⟩

/-- `foldConstAux` reporting zero changes over a whole list means no foldable
i64 const/const/binop triple occurs anywhere in the list. -/
theorem foldConstAux_no_triple : ∀ fuel l, (foldConstAux fuel l).2 = 0 →
    l.length ≤ fuel →
    ∀ pre post a b op, l = pre ++ .I64Const a :: .I64Const b :: op :: post →
      fold_i64_binop op a b = none := by
  intro fuel l
  induction fuel, l using foldConstAux.induct with
  | case1 l =>
    intro _ hlen pre post a b op heq
    rw [heq] at hlen
    simp at hlen
  | case2 fuel =>
    intro _ _ pre post a b op heq
    exact absurd heq.symm (List.append_ne_nil_of_right_ne_nil pre (by simp))
  | case3 fuel a0 b0 op0 rest v hfold ih =>
    intro h0 _ _ _ _ _ _ _
    simp [foldConstAux, hfold] at h0
  | case4 fuel a0 b0 op0 rest hfold ih =>
    intro h0 hlen pre post a b op heq
    simp only [foldConstAux, hfold] at h0
    cases pre with
    | nil =>
      simp only [List.nil_append, List.cons.injEq, WasmInst.I64Const.injEq] at heq
      obtain ⟨ha, hb, hop, -⟩ := heq
      rw [← ha, ← hb, ← hop]
      exact hfold
    | cons x pre =>
      simp only [List.cons_append, List.cons.injEq] at heq
      refine ih h0 ?_ pre post a b op heq.2
      simp only [List.length_cons] at hlen ⊢
      omega
  | case5 fuel a0 b0 op0 rest v hfold ih =>
    intro h0 _ _ _ _ _ _ _
    simp [foldConstAux, hfold] at h0
  | case6 fuel a0 b0 op0 rest hfold ih =>
    intro h0 hlen pre post a b op heq
    simp only [foldConstAux, hfold] at h0
    cases pre with
    | nil => simp at heq
    | cons x pre =>
      simp only [List.cons_append, List.cons.injEq] at heq
      refine ih h0 ?_ pre post a b op heq.2
      simp only [List.length_cons] at hlen ⊢
      omega
  | case7 fuel inst rest hnotA hnotB ih =>
    intro h0 hlen pre post a b op heq
    have he := foldConstAux.eq_5 fuel inst rest hnotA hnotB
    rw [Nat.succ_eq_add_one] at he
    rw [he] at h0
    simp only at h0
    cases pre with
    | nil =>
      simp only [List.nil_append, List.cons.injEq] at heq
      exact (hnotA a b op post heq.1 heq.2).elim
    | cons x pre =>
      simp only [List.cons_append, List.cons.injEq] at heq
      refine ih h0 ?_ pre post a b op heq.2
      simp only [List.length_cons] at hlen ⊢
      omega

/-- C9: after `optimize_function` returns, the body contains no adjacent
`i64.const K1; i64.const K2; binop` triple that `fold_i64_binop` can fold
(ADD/SUB/AND/OR/XOR/SHL/SHRS/SHRU): at every decomposition of the body around
such a triple, the fold is `none`. -/
theorem c9_constants_folded (fuel : Nat) (f g : WasmFunction)
    (h : optimize_function fuel f = some g) :
    ∀ pre post a b op, g.body = pre ++ .I64Const a :: .I64Const b :: op :: post →
      fold_i64_binop op a b = none := by
  simp only [optimize_function, Option.map_eq_some'] at h
  obtain ⟨⟨b0, n0⟩, hr, hg⟩ := h
  have hk := (optLoop_fixed _ _ _ _ _ hr).2
  intro pre post a b op heq
  have hb : g.body = b0 := by rw [← hg]
  refine foldConstAux_no_triple b0.length b0 hk (le_refl _) pre post a b op ?_
  rw [← hb]
  exact heq

/-- Witness for C9 at a concrete function: a `const 1; const 2; i64.mul`
body survives optimization, and the theorem yields that the surviving triple
is unfoldable. -/
theorem c9_constants_folded_witness :
    optimize_function 1 f0c9 = some f0c9 ∧
      fold_i64_binop .I64Mul 1 2 = none :=
  ⟨rfl, c9_constants_folded 1 f0c9 f0c9 rfl [] [] 1 2 .I64Mul rfl⟩


/-! ## translate.rs: instruction lowering -/

/-- `emit_amo_op_w` from translate.rs (word atomics XOR/AND/OR). -/
def emit_amo_op_w (rd rs1_offset rs2_offset : Nat) (op : WasmInst) : List WasmInst :=
  (if rd ≠ 0 then
    [.LocalGet 0, .LocalGet 0, .I64Load rs1_offset, .I32WrapI64, .I32Load 0,
     .I64ExtendI32S, .I64Store (rd * 8)]
  else []) ++
  [.LocalGet 0, .I64Load rs1_offset, .I32WrapI64,
   .LocalGet 0, .I64Load rs1_offset, .I32WrapI64, .I32Load 0,
   .LocalGet 0, .I64Load rs2_offset, .I32WrapI64, op, .I32Store 0]

/-- `emit_amo_op_d` from translate.rs (doubleword atomics XOR/AND/OR). -/
def emit_amo_op_d (rd rs1_offset rs2_offset : Nat) (op : WasmInst) : List WasmInst :=
  (if rd ≠ 0 then
    [.LocalGet 0, .LocalGet 0, .I64Load rs1_offset, .I32WrapI64, .I64Load 0,
     .I64Store (rd * 8)]
  else []) ++
  [.LocalGet 0, .I64Load rs1_offset, .I32WrapI64,
   .LocalGet 0, .I64Load rs1_offset, .I32WrapI64, .I64Load 0,
   .LocalGet 0, .I64Load rs2_offset, op, .I64Store 0]

/-- `emit_amo_minmax_w` from translate.rs. -/
def emit_amo_minmax_w (rd rs1_offset rs2_offset : Nat) (cmp_op : WasmInst) : List WasmInst :=
  (if rd ≠ 0 then
    [.LocalGet 0, .LocalGet 0, .I64Load rs1_offset, .I32WrapI64, .I32Load 0,
     .I64ExtendI32S, .I64Store (rd * 8)]
  else []) ++
  [.LocalGet 0, .I64Load rs1_offset, .I32WrapI64,
   .LocalGet 0, .I64Load rs1_offset, .I32WrapI64, .I32Load 0,
   .LocalGet 0, .I64Load rs2_offset, .I32WrapI64,
   .LocalGet 0, .I64Load rs1_offset, .I32WrapI64, .I32Load 0,
   .LocalGet 0, .I64Load rs2_offset, .I32WrapI64,
   cmp_op, .Select, .I32Store 0]

/-- `emit_amo_minmax_d` from translate.rs. -/
def emit_amo_minmax_d (rd rs1_offset rs2_offset : Nat) (cmp_op : WasmInst) : List WasmInst :=
  (if rd ≠ 0 then
    [.LocalGet 0, .LocalGet 0, .I64Load rs1_offset, .I32WrapI64, .I64Load 0,
     .I64Store (rd * 8)]
  else []) ++
  [.LocalGet 0, .I64Load rs1_offset, .I32WrapI64,
   .LocalGet 0, .I64Load rs1_offset, .I32WrapI64, .I64Load 0,
   .LocalGet 0, .I64Load rs2_offset,
   .LocalGet 0, .I64Load rs1_offset, .I32WrapI64, .I64Load 0,
   .LocalGet 0, .I64Load rs2_offset,
   cmp_op, .Select, .I64Store 0]

/-- `translate_instruction` from translate.rs.  The Rust function appends to
`body` and always returns `Ok`; the embedding returns the appended
instruction list.  The catch-all arm's comment text (a formatted opcode
name in Rust) is abstracted to a fixed string, which no downstream
consumer inspects. -/
def translate_instruction (inst : Instruction) : List WasmInst :=
  let rd := inst.rd.getD 0
  let rs1 := inst.rs1.getD 0
  let rs2 := inst.rs2.getD 0
  let imm := inst.imm.getD 0
  let rd_offset := rd * 8
  let rs1_offset := rs1 * 8
  let rs2_offset := rs2 * 8
  match inst.opcode with
  | .ADD =>
    if rd ≠ 0 then
      [.LocalGet 0, .LocalGet 0, .I64Load rs1_offset, .LocalGet 0, .I64Load rs2_offset,
       .I64Add, .I64Store rd_offset]
    else []
  | .SUB =>
    if rd ≠ 0 then
      [.LocalGet 0, .LocalGet 0, .I64Load rs1_offset, .LocalGet 0, .I64Load rs2_offset,
       .I64Sub, .I64Store rd_offset]
    else []
  | .AND =>
    if rd ≠ 0 then
      [.LocalGet 0, .LocalGet 0, .I64Load rs1_offset, .LocalGet 0, .I64Load rs2_offset,
       .I64And, .I64Store rd_offset]
    else []
  | .OR =>
    if rd ≠ 0 then
      [.LocalGet 0, .LocalGet 0, .I64Load rs1_offset, .LocalGet 0, .I64Load rs2_offset,
       .I64Or, .I64Store rd_offset]
    else []
  | .XOR =>
    if rd ≠ 0 then
      [.LocalGet 0, .LocalGet 0, .I64Load rs1_offset, .LocalGet 0, .I64Load rs2_offset,
       .I64Xor, .I64Store rd_offset]
    else []
  | .SLL =>
    if rd ≠ 0 then
      [.LocalGet 0, .LocalGet 0, .I64Load rs1_offset, .LocalGet 0, .I64Load rs2_offset,
       .I64Shl, .I64Store rd_offset]
    else []
  | .SRL =>
    if rd ≠ 0 then
      [.LocalGet 0, .LocalGet 0, .I64Load rs1_offset, .LocalGet 0, .I64Load rs2_offset,
       .I64ShrU, .I64Store rd_offset]
    else []
  | .SRA =>
    if rd ≠ 0 then
      [.LocalGet 0, .LocalGet 0, .I64Load rs1_offset, .LocalGet 0, .I64Load rs2_offset,
       .I64ShrS, .I64Store rd_offset]
    else []
  | .SLT =>
    if rd ≠ 0 then
      [.LocalGet 0, .LocalGet 0, .I64Load rs1_offset, .LocalGet 0, .I64Load rs2_offset,
       .I64LtS, .I64ExtendI32U, .I64Store rd_offset]
    else []
  | .SLTU =>
    if rd ≠ 0 then
      [.LocalGet 0, .LocalGet 0, .I64Load rs1_offset, .LocalGet 0, .I64Load rs2_offset,
       .I64LtU, .I64ExtendI32U, .I64Store rd_offset]
    else []
  | .ADDI | .C_ADDI | .C_LI =>
    if rd ≠ 0 then
      [.LocalGet 0, .LocalGet 0, .I64Load rs1_offset, .I64Const imm, .I64Add,
       .I64Store rd_offset]
    else []
  | .ANDI | .C_ANDI =>
    if rd ≠ 0 then
      [.LocalGet 0, .LocalGet 0, .I64Load rs1_offset, .I64Const imm, .I64And,
       .I64Store rd_offset]
    else []
  | .ORI =>
    if rd ≠ 0 then
      [.LocalGet 0, .LocalGet 0, .I64Load rs1_offset, .I64Const imm, .I64Or,
       .I64Store rd_offset]
    else []
  | .XORI =>
    if rd ≠ 0 then
      [.LocalGet 0, .LocalGet 0, .I64Load rs1_offset, .I64Const imm, .I64Xor,
       .I64Store rd_offset]
    else []
  | .SLLI | .C_SLLI =>
    if rd ≠ 0 then
      [.LocalGet 0, .LocalGet 0, .I64Load rs1_offset, .I64Const (imm &&& 0x3f), .I64Shl,
       .I64Store rd_offset]
    else []
  | .SRLI | .C_SRLI =>
    if rd ≠ 0 then
      [.LocalGet 0, .LocalGet 0, .I64Load rs1_offset, .I64Const (imm &&& 0x3f), .I64ShrU,
       .I64Store rd_offset]
    else []
  | .SRAI | .C_SRAI =>
    if rd ≠ 0 then
      [.LocalGet 0, .LocalGet 0, .I64Load rs1_offset, .I64Const (imm &&& 0x3f), .I64ShrS,
       .I64Store rd_offset]
    else []
  | .SLTI =>
    if rd ≠ 0 then
      [.LocalGet 0, .LocalGet 0, .I64Load rs1_offset, .I64Const imm, .I64LtS,
       .I64ExtendI32U, .I64Store rd_offset]
    else []
  | .SLTIU =>
    if rd ≠ 0 then
      [.LocalGet 0, .LocalGet 0, .I64Load rs1_offset, .I64Const imm, .I64LtU,
       .I64ExtendI32U, .I64Store rd_offset]
    else []
  | .LUI | .C_LUI =>
    if rd ≠ 0 then
      [.LocalGet 0, .I64Const imm, .I64Store rd_offset]
    else []
  | .AUIPC =>
    if rd ≠ 0 then
      [.LocalGet 0, .I64Const (wrap64 (inst.addr + imm)), .I64Store rd_offset]
    else []
  | .LB =>
    if rd ≠ 0 then
      [.LocalGet 0, .LocalGet 0, .I64Load rs1_offset, .I64Const imm, .I64Add,
       .I32WrapI64, .I64Load8S 0, .I64Store rd_offset]
    else []
  | .LBU =>
    if rd ≠ 0 then
      [.LocalGet 0, .LocalGet 0, .I64Load rs1_offset, .I64Const imm, .I64Add,
       .I32WrapI64, .I64Load8U 0, .I64Store rd_offset]
    else []
  | .LH =>
    if rd ≠ 0 then
      [.LocalGet 0, .LocalGet 0, .I64Load rs1_offset, .I64Const imm, .I64Add,
       .I32WrapI64, .I64Load16S 0, .I64Store rd_offset]
    else []
  | .LHU =>
    if rd ≠ 0 then
      [.LocalGet 0, .LocalGet 0, .I64Load rs1_offset, .I64Const imm, .I64Add,
       .I32WrapI64, .I64Load16U 0, .I64Store rd_offset]
    else []
  | .LW | .C_LW | .C_LWSP =>
    if rd ≠ 0 then
      [.LocalGet 0, .LocalGet 0, .I64Load rs1_offset, .I64Const imm, .I64Add,
       .I32WrapI64, .I64Load32S 0, .I64Store rd_offset]
    else []
  | .LWU =>
    if rd ≠ 0 then
      [.LocalGet 0, .LocalGet 0, .I64Load rs1_offset, .I64Const imm, .I64Add,
       .I32WrapI64, .I64Load32U 0, .I64Store rd_offset]
    else []
  | .LD | .C_LD | .C_LDSP =>
    if rd ≠ 0 then
      [.LocalGet 0, .LocalGet 0, .I64Load rs1_offset, .I64Const imm, .I64Add,
       .I32WrapI64, .I64Load 0, .I64Store rd_offset]
    else []
  | .SB =>
    [.LocalGet 0, .I64Load rs1_offset, .I64Const imm, .I64Add, .I32WrapI64,
     .LocalGet 0, .I64Load rs2_offset, .I64Store8 0]
  | .SH =>
    [.LocalGet 0, .I64Load rs1_offset, .I64Const imm, .I64Add, .I32WrapI64,
     .LocalGet 0, .I64Load rs2_offset, .I64Store16 0]
  | .SW | .C_SW | .C_SWSP =>
    [.LocalGet 0, .I64Load rs1_offset, .I64Const imm, .I64Add, .I32WrapI64,
     .LocalGet 0, .I64Load rs2_offset, .I64Store32 0]
  | .SD | .C_SD | .C_SDSP =>
    [.LocalGet 0, .I64Load rs1_offset, .I64Const imm, .I64Add, .I32WrapI64,
     .LocalGet 0, .I64Load rs2_offset, .I64Store 0]
  | .MUL =>
    if rd ≠ 0 then
      [.LocalGet 0, .LocalGet 0, .I64Load rs1_offset, .LocalGet 0, .I64Load rs2_offset,
       .I64Mul, .I64Store rd_offset]
    else []
  | .DIV =>
    if rd ≠ 0 then
      [.LocalGet 0, .LocalGet 0, .I64Load rs1_offset, .LocalGet 0, .I64Load rs2_offset,
       .I64DivS, .I64Store rd_offset]
    else []
  | .DIVU =>
    if rd ≠ 0 then
      [.LocalGet 0, .LocalGet 0, .I64Load rs1_offset, .LocalGet 0, .I64Load rs2_offset,
       .I64DivU, .I64Store rd_offset]
    else []
  | .REM =>
    if rd ≠ 0 then
      [.LocalGet 0, .LocalGet 0, .I64Load rs1_offset, .LocalGet 0, .I64Load rs2_offset,
       .I64RemS, .I64Store rd_offset]
    else []
  | .REMU =>
    if rd ≠ 0 then
      [.LocalGet 0, .LocalGet 0, .I64Load rs1_offset, .LocalGet 0, .I64Load rs2_offset,
       .I64RemU, .I64Store rd_offset]
    else []
  | .C_MV =>
    if rd ≠ 0 then
      [.LocalGet 0, .LocalGet 0, .I64Load rs2_offset, .I64Store rd_offset]
    else []
  | .C_ADD =>
    if rd ≠ 0 then
      [.LocalGet 0, .LocalGet 0, .I64Load rs1_offset, .LocalGet 0, .I64Load rs2_offset,
       .I64Add, .I64Store rd_offset]
    else []
  | .C_SUB =>
    if rd ≠ 0 then
      [.LocalGet 0, .LocalGet 0, .I64Load rs1_offset, .LocalGet 0, .I64Load rs2_offset,
       .I64Sub, .I64Store rd_offset]
    else []
  | .C_AND =>
    if rd ≠ 0 then
      [.LocalGet 0, .LocalGet 0, .I64Load rs1_offset, .LocalGet 0, .I64Load rs2_offset,
       .I64And, .I64Store rd_offset]
    else []
  | .C_OR =>
    if rd ≠ 0 then
      [.LocalGet 0, .LocalGet 0, .I64Load rs1_offset, .LocalGet 0, .I64Load rs2_offset,
       .I64Or, .I64Store rd_offset]
    else []
  | .C_XOR =>
    if rd ≠ 0 then
      [.LocalGet 0, .LocalGet 0, .I64Load rs1_offset, .LocalGet 0, .I64Load rs2_offset,
       .I64Xor, .I64Store rd_offset]
    else []
  | .C_ADDI4SPN =>
    if rd ≠ 0 then
      [.LocalGet 0, .LocalGet 0, .I64Load 16, .I64Const imm, .I64Add, .I64Store rd_offset]
    else []
  | .C_ADDI16SP =>
    [.LocalGet 0, .LocalGet 0, .I64Load 16, .I64Const imm, .I64Add, .I64Store 16]
  | .FLW =>
    [.LocalGet 0, .LocalGet 0, .I64Load rs1_offset, .I32WrapI64, .I64Const imm,
     .I32WrapI64, .I32Add, .F32Load 0, .F32Store (256 + rd * 4)]
  | .FSW =>
    [.LocalGet 0, .I64Load rs1_offset, .I32WrapI64, .I64Const imm, .I32WrapI64, .I32Add,
     .LocalGet 0, .F32Load (256 + rs2 * 4), .F32Store 0]
  | .FADD_S =>
    [.LocalGet 0, .LocalGet 0, .F32Load (256 + rs1 * 4), .LocalGet 0,
     .F32Load (256 + rs2 * 4), .F32Add, .F32Store (256 + rd * 4)]
  | .FSUB_S =>
    [.LocalGet 0, .LocalGet 0, .F32Load (256 + rs1 * 4), .LocalGet 0,
     .F32Load (256 + rs2 * 4), .F32Sub, .F32Store (256 + rd * 4)]
  | .FMUL_S =>
    [.LocalGet 0, .LocalGet 0, .F32Load (256 + rs1 * 4), .LocalGet 0,
     .F32Load (256 + rs2 * 4), .F32Mul, .F32Store (256 + rd * 4)]
  | .FDIV_S =>
    [.LocalGet 0, .LocalGet 0, .F32Load (256 + rs1 * 4), .LocalGet 0,
     .F32Load (256 + rs2 * 4), .F32Div, .F32Store (256 + rd * 4)]
  | .FSQRT_S =>
    [.LocalGet 0, .LocalGet 0, .F32Load (256 + rs1 * 4), .F32Sqrt, .F32Store (256 + rd * 4)]
  | .FLD =>
    [.LocalGet 0, .LocalGet 0, .I64Load rs1_offset, .I32WrapI64, .I64Const imm,
     .I32WrapI64, .I32Add, .F64Load 0, .F64Store (384 + rd * 8)]
  | .FSD =>
    [.LocalGet 0, .I64Load rs1_offset, .I32WrapI64, .I64Const imm, .I32WrapI64, .I32Add,
     .LocalGet 0, .F64Load (384 + rs2 * 8), .F64Store 0]
  | .FADD_D =>
    [.LocalGet 0, .LocalGet 0, .F64Load (384 + rs1 * 8), .LocalGet 0,
     .F64Load (384 + rs2 * 8), .F64Add, .F64Store (384 + rd * 8)]
  | .FSUB_D =>
    [.LocalGet 0, .LocalGet 0, .F64Load (384 + rs1 * 8), .LocalGet 0,
     .F64Load (384 + rs2 * 8), .F64Sub, .F64Store (384 + rd * 8)]
  | .FMUL_D =>
    [.LocalGet 0, .LocalGet 0, .F64Load (384 + rs1 * 8), .LocalGet 0,
     .F64Load (384 + rs2 * 8), .F64Mul, .F64Store (384 + rd * 8)]
  | .FDIV_D =>
    [.LocalGet 0, .LocalGet 0, .F64Load (384 + rs1 * 8), .LocalGet 0,
     .F64Load (384 + rs2 * 8), .F64Div, .F64Store (384 + rd * 8)]
  | .FSQRT_D =>
    [.LocalGet 0, .LocalGet 0, .F64Load (384 + rs1 * 8), .F64Sqrt, .F64Store (384 + rd * 8)]
  | .LR_W =>
    if rd ≠ 0 then
      [.LocalGet 0, .LocalGet 0, .I64Load rs1_offset, .I32WrapI64, .I32Load 0,
       .I64ExtendI32S, .I64Store rd_offset]
    else []
  | .SC_W =>
    [.LocalGet 0, .I64Load rs1_offset, .I32WrapI64, .LocalGet 0, .I64Load rs2_offset,
     .I32WrapI64, .I32Store 0] ++
    (if rd ≠ 0 then [.LocalGet 0, .I64Const 0, .I64Store rd_offset] else [])
  | .LR_D =>
    if rd ≠ 0 then
      [.LocalGet 0, .LocalGet 0, .I64Load rs1_offset, .I32WrapI64, .I64Load 0,
       .I64Store rd_offset]
    else []
  | .SC_D =>
    [.LocalGet 0, .I64Load rs1_offset, .I32WrapI64, .LocalGet 0, .I64Load rs2_offset,
     .I64Store 0] ++
    (if rd ≠ 0 then [.LocalGet 0, .I64Const 0, .I64Store rd_offset] else [])
  | .AMOSWAP_W =>
    (if rd ≠ 0 then
      [.LocalGet 0, .LocalGet 0, .I64Load rs1_offset, .I32WrapI64, .I32Load 0,
       .I64ExtendI32S, .I64Store rd_offset]
    else []) ++
    [.LocalGet 0, .I64Load rs1_offset, .I32WrapI64, .LocalGet 0, .I64Load rs2_offset,
     .I32WrapI64, .I32Store 0]
  | .AMOADD_W =>
    (if rd ≠ 0 then
      [.LocalGet 0, .LocalGet 0, .I64Load rs1_offset, .I32WrapI64, .I32Load 0,
       .I64ExtendI32S, .I64Store rd_offset]
    else []) ++
    [.LocalGet 0, .I64Load rs1_offset, .I32WrapI64,
     .LocalGet 0, .I64Load rs1_offset, .I32WrapI64, .I32Load 0,
     .LocalGet 0, .I64Load rs2_offset, .I32WrapI64, .I32Add, .I32Store 0]
  | .AMOXOR_W => emit_amo_op_w rd rs1_offset rs2_offset .I32Xor
  | .AMOAND_W => emit_amo_op_w rd rs1_offset rs2_offset .I32And
  | .AMOOR_W => emit_amo_op_w rd rs1_offset rs2_offset .I32Or
  | .AMOMIN_W => emit_amo_minmax_w rd rs1_offset rs2_offset .I32LtS
  | .AMOMAX_W => emit_amo_minmax_w rd rs1_offset rs2_offset .I32GtS
  | .AMOMINU_W => emit_amo_minmax_w rd rs1_offset rs2_offset .I32LtU
  | .AMOMAXU_W => emit_amo_minmax_w rd rs1_offset rs2_offset .I32GtU
  | .AMOSWAP_D =>
    (if rd ≠ 0 then
      [.LocalGet 0, .LocalGet 0, .I64Load rs1_offset, .I32WrapI64, .I64Load 0,
       .I64Store rd_offset]
    else []) ++
    [.LocalGet 0, .I64Load rs1_offset, .I32WrapI64, .LocalGet 0, .I64Load rs2_offset,
     .I64Store 0]
  | .AMOADD_D =>
    (if rd ≠ 0 then
      [.LocalGet 0, .LocalGet 0, .I64Load rs1_offset, .I32WrapI64, .I64Load 0,
       .I64Store rd_offset]
    else []) ++
    [.LocalGet 0, .I64Load rs1_offset, .I32WrapI64,
     .LocalGet 0, .I64Load rs1_offset, .I32WrapI64, .I64Load 0,
     .LocalGet 0, .I64Load rs2_offset, .I64Add, .I64Store 0]
  | .AMOXOR_D => emit_amo_op_d rd rs1_offset rs2_offset .I64Xor
  | .AMOAND_D => emit_amo_op_d rd rs1_offset rs2_offset .I64And
  | .AMOOR_D => emit_amo_op_d rd rs1_offset rs2_offset .I64Or
  | .AMOMIN_D => emit_amo_minmax_d rd rs1_offset rs2_offset .I64LtS
  | .AMOMAX_D => emit_amo_minmax_d rd rs1_offset rs2_offset .I64GtS
  | .AMOMINU_D => emit_amo_minmax_d rd rs1_offset rs2_offset .I64LtU
  | .AMOMAXU_D => emit_amo_minmax_d rd rs1_offset rs2_offset .I64GtU
  | .FMADD_S =>
    let rs3 := (inst.bytes >>> 27) &&& 0x1f
    [.LocalGet 0, .LocalGet 0, .F32Load (256 + rs1 * 4), .LocalGet 0,
     .F32Load (256 + rs2 * 4), .F32Mul, .LocalGet 0, .F32Load (256 + rs3 * 4),
     .F32Add, .F32Store (256 + rd * 4)]
  | .FMSUB_S =>
    let rs3 := (inst.bytes >>> 27) &&& 0x1f
    [.LocalGet 0, .LocalGet 0, .F32Load (256 + rs1 * 4), .LocalGet 0,
     .F32Load (256 + rs2 * 4), .F32Mul, .LocalGet 0, .F32Load (256 + rs3 * 4),
     .F32Sub, .F32Store (256 + rd * 4)]
  | .FNMSUB_S =>
    let rs3 := (inst.bytes >>> 27) &&& 0x1f
    [.LocalGet 0, .LocalGet 0, .F32Load (256 + rs1 * 4), .LocalGet 0,
     .F32Load (256 + rs2 * 4), .F32Mul, .F32Neg, .LocalGet 0, .F32Load (256 + rs3 * 4),
     .F32Add, .F32Store (256 + rd * 4)]
  | .FNMADD_S =>
    let rs3 := (inst.bytes >>> 27) &&& 0x1f
    [.LocalGet 0, .LocalGet 0, .F32Load (256 + rs1 * 4), .LocalGet 0,
     .F32Load (256 + rs2 * 4), .F32Mul, .F32Neg, .LocalGet 0, .F32Load (256 + rs3 * 4),
     .F32Sub, .F32Store (256 + rd * 4)]
  | .FMADD_D =>
    let rs3 := (inst.bytes >>> 27) &&& 0x1f
    [.LocalGet 0, .LocalGet 0, .F64Load (384 + rs1 * 8), .LocalGet 0,
     .F64Load (384 + rs2 * 8), .F64Mul, .LocalGet 0, .F64Load (384 + rs3 * 8),
     .F64Add, .F64Store (384 + rd * 8)]
  | .FMSUB_D =>
    let rs3 := (inst.bytes >>> 27) &&& 0x1f
    [.LocalGet 0, .LocalGet 0, .F64Load (384 + rs1 * 8), .LocalGet 0,
     .F64Load (384 + rs2 * 8), .F64Mul, .LocalGet 0, .F64Load (384 + rs3 * 8),
     .F64Sub, .F64Store (384 + rd * 8)]
  | .FNMSUB_D =>
    let rs3 := (inst.bytes >>> 27) &&& 0x1f
    [.LocalGet 0, .LocalGet 0, .F64Load (384 + rs1 * 8), .LocalGet 0,
     .F64Load (384 + rs2 * 8), .F64Mul, .F64Neg, .LocalGet 0, .F64Load (384 + rs3 * 8),
     .F64Add, .F64Store (384 + rd * 8)]
  | .FNMADD_D =>
    let rs3 := (inst.bytes >>> 27) &&& 0x1f
    [.LocalGet 0, .LocalGet 0, .F64Load (384 + rs1 * 8), .LocalGet 0,
     .F64Load (384 + rs2 * 8), .F64Mul, .F64Neg, .LocalGet 0, .F64Load (384 + rs3 * 8),
     .F64Sub, .F64Store (384 + rd * 8)]
  | .ADDIW | .C_ADDIW =>
    if rd ≠ 0 then
      [.LocalGet 0, .LocalGet 0, .I64Load rs1_offset, .I64Const imm, .I64Add,
       .I32WrapI64, .I64ExtendI32S, .I64Store rd_offset]
    else []
  | .SLLIW =>
    if rd ≠ 0 then
      [.LocalGet 0, .LocalGet 0, .I64Load rs1_offset, .I32WrapI64,
       .I32Const (imm &&& 0x1f), .I32Shl, .I64ExtendI32S, .I64Store rd_offset]
    else []
  | .SRLIW =>
    if rd ≠ 0 then
      [.LocalGet 0, .LocalGet 0, .I64Load rs1_offset, .I32WrapI64,
       .I32Const (imm &&& 0x1f), .I32ShrU, .I64ExtendI32S, .I64Store rd_offset]
    else []
  | .SRAIW =>
    if rd ≠ 0 then
      [.LocalGet 0, .LocalGet 0, .I64Load rs1_offset, .I32WrapI64,
       .I32Const (imm &&& 0x1f), .I32ShrS, .I64ExtendI32S, .I64Store rd_offset]
    else []
  | .ADDW | .C_ADDW =>
    if rd ≠ 0 then
      [.LocalGet 0, .LocalGet 0, .I64Load rs1_offset, .I32WrapI64, .LocalGet 0,
       .I64Load rs2_offset, .I32WrapI64, .I32Add, .I64ExtendI32S, .I64Store rd_offset]
    else []
  | .SUBW | .C_SUBW =>
    if rd ≠ 0 then
      [.LocalGet 0, .LocalGet 0, .I64Load rs1_offset, .I32WrapI64, .LocalGet 0,
       .I64Load rs2_offset, .I32WrapI64, .I32Sub, .I64ExtendI32S, .I64Store rd_offset]
    else []
  | .SLLW =>
    if rd ≠ 0 then
      [.LocalGet 0, .LocalGet 0, .I64Load rs1_offset, .I32WrapI64, .LocalGet 0,
       .I64Load rs2_offset, .I32WrapI64, .I32Shl, .I64ExtendI32S, .I64Store rd_offset]
    else []
  | .SRLW =>
    if rd ≠ 0 then
      [.LocalGet 0, .LocalGet 0, .I64Load rs1_offset, .I32WrapI64, .LocalGet 0,
       .I64Load rs2_offset, .I32WrapI64, .I32ShrU, .I64ExtendI32S, .I64Store rd_offset]
    else []
  | .SRAW =>
    if rd ≠ 0 then
      [.LocalGet 0, .LocalGet 0, .I64Load rs1_offset, .I32WrapI64, .LocalGet 0,
       .I64Load rs2_offset, .I32WrapI64, .I32ShrS, .I64ExtendI32S, .I64Store rd_offset]
    else []
  | .MULW =>
    if rd ≠ 0 then
      [.LocalGet 0, .LocalGet 0, .I64Load rs1_offset, .I32WrapI64, .LocalGet 0,
       .I64Load rs2_offset, .I32WrapI64, .I32Mul, .I64ExtendI32S, .I64Store rd_offset]
    else []
  | .DIVW =>
    if rd ≠ 0 then
      [.LocalGet 0, .LocalGet 0, .I64Load rs1_offset, .I32WrapI64, .LocalGet 0,
       .I64Load rs2_offset, .I32WrapI64, .I32DivS, .I64ExtendI32S, .I64Store rd_offset]
    else []
  | .DIVUW =>
    if rd ≠ 0 then
      [.LocalGet 0, .LocalGet 0, .I64Load rs1_offset, .I32WrapI64, .LocalGet 0,
       .I64Load rs2_offset, .I32WrapI64, .I32DivU, .I64ExtendI32S, .I64Store rd_offset]
    else []
  | .REMW =>
    if rd ≠ 0 then
      [.LocalGet 0, .LocalGet 0, .I64Load rs1_offset, .I32WrapI64, .LocalGet 0,
       .I64Load rs2_offset, .I32WrapI64, .I32RemS, .I64ExtendI32S, .I64Store rd_offset]
    else []
  | .REMUW =>
    if rd ≠ 0 then
      [.LocalGet 0, .LocalGet 0, .I64Load rs1_offset, .I32WrapI64, .LocalGet 0,
       .I64Load rs2_offset, .I32WrapI64, .I32RemU, .I64ExtendI32S, .I64Store rd_offset]
    else []
  | .MULH =>
    if rd ≠ 0 then [.LocalGet 0, .I64Const 0, .I64Store rd_offset] else []
  | .MULHU =>
    if rd ≠ 0 then [.LocalGet 0, .I64Const 0, .I64Store rd_offset] else []
  | .MULHSU =>
    if rd ≠ 0 then [.LocalGet 0, .I64Const 0, .I64Store rd_offset] else []
  | .FENCE | .C_NOP => []
  | .BEQ | .BNE | .BLT | .BGE | .BLTU | .BGEU | .C_BEQZ | .C_BNEZ
  | .JAL | .JALR | .C_J | .C_JAL | .C_JR | .C_JALR
  | .ECALL | .EBREAK | .C_EBREAK => []
  | .FSGNJ_S =>
    [.LocalGet 0, .LocalGet 0, .F32Load (256 + rs1 * 4), .F32Abs, .LocalGet 0,
     .F32Load (256 + rs2 * 4), .F32Copysign, .F32Store (256 + rd * 4)]
  | .FSGNJN_S =>
    [.LocalGet 0, .LocalGet 0, .F32Load (256 + rs1 * 4), .F32Abs, .LocalGet 0,
     .F32Load (256 + rs2 * 4), .F32Neg, .F32Copysign, .F32Store (256 + rd * 4)]
  | .FSGNJX_S =>
    [.LocalGet 0, .LocalGet 0, .F32Load (256 + rs1 * 4), .I32ReinterpretF32, .LocalGet 0,
     .F32Load (256 + rs2 * 4), .I32ReinterpretF32, .I32Const 0x80000000, .I32And,
     .I32Xor, .F32ReinterpretI32, .F32Store (256 + rd * 4)]
  | .FSGNJ_D =>
    [.LocalGet 0, .LocalGet 0, .F64Load (384 + rs1 * 8), .F64Abs, .LocalGet 0,
     .F64Load (384 + rs2 * 8), .F64Copysign, .F64Store (384 + rd * 8)]
  | .FSGNJN_D =>
    [.LocalGet 0, .LocalGet 0, .F64Load (384 + rs1 * 8), .F64Abs, .LocalGet 0,
     .F64Load (384 + rs2 * 8), .F64Neg, .F64Copysign, .F64Store (384 + rd * 8)]
  | .FSGNJX_D =>
    [.LocalGet 0, .LocalGet 0, .F64Load (384 + rs1 * 8), .I64ReinterpretF64, .LocalGet 0,
     .F64Load (384 + rs2 * 8), .I64ReinterpretF64, .I64Const 0x8000000000000000,
     .I64And, .I64Xor, .F64ReinterpretI64, .F64Store (384 + rd * 8)]
  | .FMIN_S =>
    [.LocalGet 0, .LocalGet 0, .F32Load (256 + rs1 * 4), .LocalGet 0,
     .F32Load (256 + rs2 * 4), .F32Min, .F32Store (256 + rd * 4)]
  | .FMAX_S =>
    [.LocalGet 0, .LocalGet 0, .F32Load (256 + rs1 * 4), .LocalGet 0,
     .F32Load (256 + rs2 * 4), .F32Max, .F32Store (256 + rd * 4)]
  | .FMIN_D =>
    [.LocalGet 0, .LocalGet 0, .F64Load (384 + rs1 * 8), .LocalGet 0,
     .F64Load (384 + rs2 * 8), .F64Min, .F64Store (384 + rd * 8)]
  | .FMAX_D =>
    [.LocalGet 0, .LocalGet 0, .F64Load (384 + rs1 * 8), .LocalGet 0,
     .F64Load (384 + rs2 * 8), .F64Max, .F64Store (384 + rd * 8)]
  | .FEQ_S =>
    if rd ≠ 0 then
      [.LocalGet 0, .LocalGet 0, .F32Load (256 + rs1 * 4), .LocalGet 0,
       .F32Load (256 + rs2 * 4), .F32Eq, .I64ExtendI32U, .I64Store rd_offset]
    else []
  | .FLT_S =>
    if rd ≠ 0 then
      [.LocalGet 0, .LocalGet 0, .F32Load (256 + rs1 * 4), .LocalGet 0,
       .F32Load (256 + rs2 * 4), .F32Lt, .I64ExtendI32U, .I64Store rd_offset]
    else []
  | .FLE_S =>
    if rd ≠ 0 then
      [.LocalGet 0, .LocalGet 0, .F32Load (256 + rs1 * 4), .LocalGet 0,
       .F32Load (256 + rs2 * 4), .F32Le, .I64ExtendI32U, .I64Store rd_offset]
    else []
  | .FEQ_D =>
    if rd ≠ 0 then
      [.LocalGet 0, .LocalGet 0, .F64Load (384 + rs1 * 8), .LocalGet 0,
       .F64Load (384 + rs2 * 8), .F64Eq, .I64ExtendI32U, .I64Store rd_offset]
    else []
  | .FLT_D =>
    if rd ≠ 0 then
      [.LocalGet 0, .LocalGet 0, .F64Load (384 + rs1 * 8), .LocalGet 0,
       .F64Load (384 + rs2 * 8), .F64Lt, .I64ExtendI32U, .I64Store rd_offset]
    else []
  | .FLE_D =>
    if rd ≠ 0 then
      [.LocalGet 0, .LocalGet 0, .F64Load (384 + rs1 * 8), .LocalGet 0,
       .F64Load (384 + rs2 * 8), .F64Le, .I64ExtendI32U, .I64Store rd_offset]
    else []
  | .FCVT_W_S =>
    if rd ≠ 0 then
      [.LocalGet 0, .LocalGet 0, .F32Load (256 + rs1 * 4), .I32TruncF32S,
       .I64ExtendI32S, .I64Store rd_offset]
    else []
  | .FCVT_WU_S =>
    if rd ≠ 0 then
      [.LocalGet 0, .LocalGet 0, .F32Load (256 + rs1 * 4), .I32TruncF32U,
       .I64ExtendI32S, .I64Store rd_offset]
    else []
  | .FCVT_L_S =>
    if rd ≠ 0 then
      [.LocalGet 0, .LocalGet 0, .F32Load (256 + rs1 * 4), .I64TruncF32S,
       .I64Store rd_offset]
    else []
  | .FCVT_LU_S =>
    if rd ≠ 0 then
      [.LocalGet 0, .LocalGet 0, .F32Load (256 + rs1 * 4), .I64TruncF32U,
       .I64Store rd_offset]
    else []
  | .FCVT_W_D =>
    if rd ≠ 0 then
      [.LocalGet 0, .LocalGet 0, .F64Load (384 + rs1 * 8), .I32TruncF64S,
       .I64ExtendI32S, .I64Store rd_offset]
    else []
  | .FCVT_WU_D =>
    if rd ≠ 0 then
      [.LocalGet 0, .LocalGet 0, .F64Load (384 + rs1 * 8), .I32TruncF64U,
       .I64ExtendI32S, .I64Store rd_offset]
    else []
  | .FCVT_L_D =>
    if rd ≠ 0 then
      [.LocalGet 0, .LocalGet 0, .F64Load (384 + rs1 * 8), .I64TruncF64S,
       .I64Store rd_offset]
    else []
  | .FCVT_LU_D =>
    if rd ≠ 0 then
      [.LocalGet 0, .LocalGet 0, .F64Load (384 + rs1 * 8), .I64TruncF64U,
       .I64Store rd_offset]
    else []
  | .FCVT_S_W =>
    [.LocalGet 0, .LocalGet 0, .I64Load rs1_offset, .I32WrapI64, .F32ConvertI32S,
     .F32Store (256 + rd * 4)]
  | .FCVT_S_WU =>
    [.LocalGet 0, .LocalGet 0, .I64Load rs1_offset, .I32WrapI64, .F32ConvertI32U,
     .F32Store (256 + rd * 4)]
  | .FCVT_S_L =>
    [.LocalGet 0, .LocalGet 0, .I64Load rs1_offset, .F32ConvertI64S,
     .F32Store (256 + rd * 4)]
  | .FCVT_S_LU =>
    [.LocalGet 0, .LocalGet 0, .I64Load rs1_offset, .F32ConvertI64U,
     .F32Store (256 + rd * 4)]
  | .FCVT_D_W =>
    [.LocalGet 0, .LocalGet 0, .I64Load rs1_offset, .I32WrapI64, .F64ConvertI32S,
     .F64Store (384 + rd * 8)]
  | .FCVT_D_WU =>
    [.LocalGet 0, .LocalGet 0, .I64Load rs1_offset, .I32WrapI64, .F64ConvertI32U,
     .F64Store (384 + rd * 8)]
  | .FCVT_D_L =>
    [.LocalGet 0, .LocalGet 0, .I64Load rs1_offset, .F64ConvertI64S,
     .F64Store (384 + rd * 8)]
  | .FCVT_D_LU =>
    [.LocalGet 0, .LocalGet 0, .I64Load rs1_offset, .F64ConvertI64U,
     .F64Store (384 + rd * 8)]
  | .FCVT_S_D =>
    [.LocalGet 0, .LocalGet 0, .F64Load (384 + rs1 * 8), .F32DemoteF64,
     .F32Store (256 + rd * 4)]
  | .FCVT_D_S =>
    [.LocalGet 0, .LocalGet 0, .F32Load (256 + rs1 * 4), .F64PromoteF32,
     .F64Store (384 + rd * 8)]
  | .FMV_X_W =>
    if rd ≠ 0 then
      [.LocalGet 0, .LocalGet 0, .F32Load (256 + rs1 * 4), .I32ReinterpretF32,
       .I64ExtendI32S, .I64Store rd_offset]
    else []
  | .FMV_W_X =>
    [.LocalGet 0, .LocalGet 0, .I64Load rs1_offset, .I32WrapI64, .F32ReinterpretI32,
     .F32Store (256 + rd * 4)]
  | .FMV_X_D =>
    if rd ≠ 0 then
      [.LocalGet 0, .LocalGet 0, .F64Load (384 + rs1 * 8), .I64ReinterpretF64,
       .I64Store rd_offset]
    else []
  | .FMV_D_X =>
    [.LocalGet 0, .LocalGet 0, .I64Load rs1_offset, .F64ReinterpretI64,
     .F64Store (384 + rd * 8)]
  | .FCLASS_S | .FCLASS_D =>
    if rd ≠ 0 then [.LocalGet 0, .I64Const 0x40, .I64Store rd_offset] else []
  | .Unknown =>
    [.Comment ("UNSUPPORTED"), .I32Const (M32 - 1), .Return]

/-- `emit_branch_compare` from translate.rs. -/
def emit_branch_compare (rs1 rs2 imm pc fallthrough : Nat) (cmp_op : WasmInst) :
    List WasmInst :=
  [.LocalGet 0, .I64Load (rs1 * 8), .LocalGet 0, .I64Load (rs2 * 8), cmp_op,
   .I32Const (wrap32 (wrap64 (pc + imm))), .I32Const (wrap32 fallthrough),
   .Select, .Return]

/-- `emit_branch_zero` from translate.rs. -/
def emit_branch_zero (rs1 imm pc fallthrough : Nat) (on_zero : Bool) : List WasmInst :=
  [.LocalGet 0, .I64Load (rs1 * 8), .I64Eqz] ++
  (if on_zero then
    [.I32Const (wrap32 (wrap64 (pc + imm))), .I32Const (wrap32 fallthrough)]
  else
    [.I32Const (wrap32 fallthrough), .I32Const (wrap32 (wrap64 (pc + imm)))]) ++
  [.Select, .Return]

/-- `add_terminator_return` from translate.rs (returned as the appended list).
`ic` is the `ic_targets` slice of known block addresses. -/
def add_terminator_return (inst : Instruction) (block : BasicBlock) (ic : List Nat) :
    List WasmInst :=
  let rd := inst.rd.getD 0
  let rs1 := inst.rs1.getD 0
  let imm := inst.imm.getD 0
  let next_pc := block.end_addr
  match inst.opcode with
  | .BEQ => emit_branch_compare rs1 (inst.rs2.getD 0) imm inst.addr next_pc .I64Eq
  | .BNE => emit_branch_compare rs1 (inst.rs2.getD 0) imm inst.addr next_pc .I64Ne
  | .BLT => emit_branch_compare rs1 (inst.rs2.getD 0) imm inst.addr next_pc .I64LtS
  | .BGE => emit_branch_compare rs1 (inst.rs2.getD 0) imm inst.addr next_pc .I64GeS
  | .BLTU => emit_branch_compare rs1 (inst.rs2.getD 0) imm inst.addr next_pc .I64LtU
  | .BGEU => emit_branch_compare rs1 (inst.rs2.getD 0) imm inst.addr next_pc .I64GeU
  | .C_BEQZ => emit_branch_zero rs1 imm inst.addr next_pc true
  | .C_BNEZ => emit_branch_zero rs1 imm inst.addr next_pc false
  | .JAL | .C_JAL =>
    (if rd ≠ 0 then
      [.LocalGet 0, .I64Const (wrap64 (inst.addr + inst.len)), .I64Store (rd * 8)]
    else []) ++
    [.I32Const (wrap32 (wrap64 (inst.addr + imm))), .Return]
  | .C_J =>
    [.I32Const (wrap32 (wrap64 (inst.addr + imm))), .Return]
  | .JALR | .C_JALR =>
    (if rd ≠ 0 then
      [.LocalGet 0, .I64Const (wrap64 (inst.addr + inst.len)), .I64Store (rd * 8)]
    else []) ++
    [.LocalGet 0, .I64Load (rs1 * 8)] ++
    (if imm ≠ 0 then [.I64Const imm, .I64Add] else []) ++
    [.I64Const (M64 - 2), .I64And, .I32WrapI64] ++
    (let successors :=
      if rd ≠ 0 then (block.successors.filter (fun s => ic.contains s)).take 2 else []
     if successors ≠ [] then
       [.LocalSet 1] ++
       successors.foldr (fun t acc =>
         [.Block 0, .LocalGet 1, .I32Const (wrap32 t), .I32Ne, .BrIf 0,
          .I32Const (wrap32 t), .Return, .End] ++ acc) [] ++
       [.LocalGet 1]
     else []) ++
    [.Return]
  | .C_JR =>
    [.LocalGet 0, .I64Load (rs1 * 8), .I32WrapI64, .Return]
  | .ECALL =>
    [.I32Const (0x80000000 ||| wrap32 inst.addr), .Return]
  | .EBREAK | .C_EBREAK =>
    [.I32Const (0xC0000000 ||| wrap32 inst.addr), .Return]
  | _ =>
    [.I32Const (wrap32 next_pc), .Return]

/-- `translate_block` from translate.rs with `debug = false` (the JIT path and
the default AOT path; `debug = true` only adds `Comment` nodes, which
`optimize_function` strips).  The function name (a formatted hex string in
Rust) is abstracted to a fixed string, which no downstream consumer
inspects. -/
def translate_block (block : BasicBlock) (ic : List Nat) : WasmFunction :=
  let body :=
    (block.instructions.foldr (fun i acc => translate_instruction i ++ acc) []) ++
    (match block.terminator with
     | some term => add_terminator_return term block ic
     | none => [.I32Const (wrap32 block.end_addr), .Return])
  ⟨"block", block.start_addr, body, 4⟩

/-! ## A symbolic operand-stack analysis of the emitted Wasm

The operand stack is abstracted to a list of Booleans: `true` marks a value
produced by `local.get 0` (the machine-state base pointer `$m`), `false`
anything else.  Every memory access records an event carrying the tag of its
address operand and its static offset; a store into the register file is
exactly a store event whose address tag is `true` and whose offset lies
below 256. -/

/-- A memory-access event of the emitted code: a store or a load, with the
symbolic tag of the address operand (`true` = the `$m` base pointer) and the
access's static offset. -/
inductive SymEv where
  | store (base : Bool) (off : Nat)
  | load (base : Bool) (off : Nat)
  deriving Repr, DecidableEq

/-- One instruction's effect on the abstract operand stack, with the memory
events it performs.  Pure operators push non-base values; loads pop their
address and push a non-base value; stores pop value then address.  Control
instructions do not move operands between the instructions we analyze. -/
def symStep (s : List Bool) : WasmInst → List Bool × List SymEv
  | .LocalGet idx => (decide (idx = 0) :: s, [])
  | .LocalSet _ => (s.tail, [])
  | .LocalTee _ => (s, [])
  | .I32Const _ | .I64Const _ | .F32Const _ | .F64Const _ => (false :: s, [])
  | .I32Load off | .I64Load off
  | .I32Load8S off | .I32Load8U off | .I32Load16S off | .I32Load16U off
  | .I64Load8S off | .I64Load8U off | .I64Load16S off | .I64Load16U off
  | .I64Load32S off | .I64Load32U off
  | .F32Load off | .F64Load off =>
    (false :: s.tail, [.load (s.headD false) off])
  | .I32Store off | .I64Store off
  | .I32Store8 off | .I32Store16 off
  | .I64Store8 off | .I64Store16 off | .I64Store32 off
  | .F32Store off | .F64Store off =>
    (s.tail.tail, [.store (s.tail.headD false) off])
  | .I64Add | .I64Sub | .I64Mul | .I64DivS | .I64DivU | .I64RemS | .I64RemU
  | .I64And | .I64Or | .I64Xor | .I64Shl | .I64ShrS | .I64ShrU
  | .I64Rotl | .I64Rotr
  | .I64Eq | .I64Ne | .I64LtS | .I64LtU | .I64GtS | .I64GtU
  | .I64LeS | .I64LeU | .I64GeS | .I64GeU
  | .I32Add | .I32Sub | .I32Mul | .I32DivS | .I32DivU | .I32RemS | .I32RemU
  | .I32And | .I32Or | .I32Xor | .I32Shl | .I32ShrS | .I32ShrU
  | .I32Eq | .I32Ne | .I32LtS | .I32LtU | .I32GtS | .I32GtU
  | .I32LeS | .I32LeU | .I32GeS | .I32GeU
  | .F32Add | .F32Sub | .F32Mul | .F32Div | .F32Min | .F32Max | .F32Copysign
  | .F32Eq | .F32Ne | .F32Lt | .F32Gt | .F32Le | .F32Ge
  | .F64Add | .F64Sub | .F64Mul | .F64Div | .F64Min | .F64Max | .F64Copysign
  | .F64Eq | .F64Ne | .F64Lt | .F64Gt | .F64Le | .F64Ge =>
    (false :: s.tail.tail, [])
  | .I64Clz | .I64Ctz | .I64Popcnt | .I64Eqz | .I32Eqz
  | .I32WrapI64 | .I64ExtendI32S | .I64ExtendI32U
  | .F32Sqrt | .F32Neg | .F32Abs | .F32Ceil | .F32Floor | .F32Trunc | .F32Nearest
  | .F64Sqrt | .F64Neg | .F64Abs | .F64Ceil | .F64Floor | .F64Trunc | .F64Nearest
  | .F32ConvertI32S | .F32ConvertI32U | .F32ConvertI64S | .F32ConvertI64U
  | .F64ConvertI32S | .F64ConvertI32U | .F64ConvertI64S | .F64ConvertI64U
  | .I32TruncF32S | .I32TruncF32U | .I32TruncF64S | .I32TruncF64U
  | .I64TruncF32S | .I64TruncF32U | .I64TruncF64S | .I64TruncF64U
  | .F32DemoteF64 | .F64PromoteF32
  | .F32ReinterpretI32 | .F64ReinterpretI64 | .I32ReinterpretF32 | .I64ReinterpretF64 =>
    (false :: s.tail, [])
  | .Select => (false :: s.tail.tail.tail, [])
  | .Drop => (s.tail, [])
  | .BrIf _ | .BrTable _ _ => (s.tail, [])
  | .Block _ | .Loop _ | .End | .Br _ | .Return | .Unreachable | .Comment _
  | .Call _ | .CallIndirect _ => (s, [])

/-- Run the symbolic stack over a list, collecting the events. -/
def symRun : List Bool → List WasmInst → List SymEv
  | _, [] => []
  | s, i :: rest => (symStep s i).2 ++ symRun (symStep s i).1 rest

/-- Events of a list, starting from the empty operand stack. -/
def symEvents (l : List WasmInst) : List SymEv :=
  symRun [] l

/-- Every event is benign with respect to the x0 slot: base-addressed stores
stay at or above offset 256 (outside the GPR file), and base-addressed loads
below offset 256 only read the `rs1`, `rs2` or `x2` slots (then with
`rs1 = 0` the load reads the zero slot at offset 0). -/
def evsOK (rs1 rs2 : Nat) : List SymEv → Prop
  | [] => True
  | .store b off :: rest => (b = true → 256 ≤ off) ∧ evsOK rs1 rs2 rest
  | .load b off :: rest =>
    (b = true → off < 256 → (off = rs1 * 8 ∨ off = rs2 * 8 ∨ off = 16)) ∧
      evsOK rs1 rs2 rest

/-- Is this opcode `C_ADDI16SP`? -/
def Opcode.is_c_addi16sp : Opcode → Bool
  | .C_ADDI16SP => true
  | _ => false

/-- The decoded-fields invariant of `decodeCFields`: a `C_ADDI16SP` record
carries `rd = some 2`. -/
def cAddi16spRdOK (t : Opcode × Option Nat × Option Nat × Option Nat × Option Nat) : Bool :=
  !t.1.is_c_addi16sp || (t.2.1 == some 2)

set_option maxHeartbeats 4000000 in
theorem decode32Op_not_c_addi16sp (opb f3 f7 w : Nat) :
    (decode32Op opb f3 f7 w).1.is_c_addi16sp = false := by
  rw [decode32Op]
  simp only [apply_ite Prod.fst, apply_ite Opcode.is_c_addi16sp]
  simp [Opcode.is_c_addi16sp]

/-- The 32-bit decoder never yields `C_ADDI16SP`. -/
theorem decode32Op_ne_c_addi16sp (opb f3 f7 w : Nat) :
    (decode32Op opb f3 f7 w).1 ≠ Opcode.C_ADDI16SP := by
  intro h
  have h0 := decode32Op_not_c_addi16sp opb f3 f7 w
  rw [h] at h0
  simp [Opcode.is_c_addi16sp] at h0

set_option maxHeartbeats 4000000 in
theorem decodeCFields_rd_ok (w : Nat) : cAddi16spRdOK (decodeCFields w) = true := by
  rw [decodeCFields]
  simp only [apply_ite cAddi16spRdOK]
  simp only [cAddi16spRdOK]
  simp only [apply_ite Opcode.is_c_addi16sp]
  simp [Opcode.is_c_addi16sp]

/-- The compressed decoder only yields `C_ADDI16SP` with `rd = some 2`. -/
theorem decodeCFields_c_addi16sp (w : Nat)
    (h : (decodeCFields w).1 = Opcode.C_ADDI16SP) : (decodeCFields w).2.1 = some 2 := by
  have h0 := decodeCFields_rd_ok w
  simp only [cAddi16spRdOK, h, Opcode.is_c_addi16sp] at h0
  simpa using h0

set_option maxHeartbeats 10000000 in
/-- For any instruction whose `rd` field reads as 0 — unless it is
`C_ADDI16SP`, whose decoded destination is x2 — neither
`translate_instruction` nor `add_terminator_return` emits a base-addressed
store below offset 256, and base-addressed loads below offset 256 only read
the source-register slots. -/
theorem translate_rd0_events (inst : Instruction) (block : BasicBlock) (ic : List Nat)
    (hno : inst.opcode = Opcode.C_ADDI16SP → inst.rd = some 2)
    (h : inst.rd.getD 0 = 0) :
    evsOK (inst.rs1.getD 0) (inst.rs2.getD 0)
      (symEvents (translate_instruction inst)) ∧
    evsOK (inst.rs1.getD 0) (inst.rs2.getD 0)
      (symEvents (add_terminator_return inst block ic)) := by
  obtain ⟨addr, bytes, len, opcode, rd, rs1, rs2, imm⟩ := inst
  have h' : rd.getD 0 = 0 := h
  cases opcode <;>
    refine ⟨?_, ?_⟩ <;>
    try (have h2 : rd = some 2 := hno rfl; rw [h2] at h'; simp at h')
  all_goals
    simp [translate_instruction, add_terminator_return,
      emit_branch_compare, emit_branch_zero,
      emit_amo_op_w, emit_amo_op_d, emit_amo_minmax_w, emit_amo_minmax_d,
      symEvents, symRun, symStep, evsOK, h']
  all_goals try omega
  all_goals (by_cases him : imm.getD 0 = 0 <;> simp [him, symRun, symStep, evsOK])

/-- C1: x0 invariance — for any decoded instruction whose destination
register decodes to 0, neither `translate_instruction` nor
`add_terminator_return` emits a store into the register-file region (a
base-addressed store below offset 256; in particular no link-value write),
while base-addressed loads below offset 256 in the emitted code only read
the decoded source-register slots (so a read of x0 still loads the zero
slot at offset 0). -/
theorem c1_x0_invariance (inst : Instruction) (block : BasicBlock) (ic : List Nat)
    (hdec : (∃ a w, inst = decode_32bit a w) ∨ (∃ a w, inst = decode_compressed a w))
    (h : inst.rd.getD 0 = 0) :
    evsOK (inst.rs1.getD 0) (inst.rs2.getD 0)
      (symEvents (translate_instruction inst)) ∧
    evsOK (inst.rs1.getD 0) (inst.rs2.getD 0)
      (symEvents (add_terminator_return inst block ic)) := by
  refine translate_rd0_events inst block ic ?_ h
  rcases hdec with ⟨a, w, rfl⟩ | ⟨a, w, rfl⟩
  · intro hop
    exact absurd hop (decode32Op_ne_c_addi16sp (w &&& 0x7f) ((w >>> 12) &&& 0x7)
      ((w >>> 25) &&& 0x7f) w)
  · intro hop
    exact decodeCFields_c_addi16sp w hop

/-- The instruction `sd x1, 0(x0)` at 0x1000 (rd decodes to 0). -/
def c1Inst : Instruction := decode_32bit 0x1000 0x00103023

/-- A one-instruction block holding `c1Inst`. -/
def c1Block : BasicBlock := ⟨0x1000, 0x1004, [c1Inst], [], false⟩

/-- Witness for C1 at `sd x1, 0(x0)`: the destination decodes to 0, the
x0-invariance conclusion holds, and the emitted code indeed reads x0 through
a base-addressed load of the zero slot at offset 0. -/
theorem c1_x0_invariance_witness :
    c1Inst.rd.getD 0 = 0 ∧
      (evsOK (c1Inst.rs1.getD 0) (c1Inst.rs2.getD 0)
          (symEvents (translate_instruction c1Inst)) ∧
        evsOK (c1Inst.rs1.getD 0) (c1Inst.rs2.getD 0)
          (symEvents (add_terminator_return c1Inst c1Block []))) ∧
      SymEv.load true 0 ∈ symEvents (translate_instruction c1Inst) :=
  ⟨by decide, c1_x0_invariance c1Inst c1Block []
      (Or.inl ⟨0x1000, 0x00103023, rfl⟩) (by decide), by decide⟩

/-- C3: a block whose terminator is ECALL lowers to a function whose body
ends by returning the i32 constant `0x80000000 ||| pc`, and one whose
terminator is EBREAK or C.EBREAK ends by returning `0xC0000000 ||| pc`,
where `pc` is the terminator's guest address. -/
theorem c3_ecall_ebreak_return (block : BasicBlock) (ic : List Nat) (t : Instruction)
    (hterm : block.terminator = some t) :
    (t.opcode = .ECALL →
      ∃ pre, (translate_block block ic).body =
        pre ++ [.I32Const (0x80000000 ||| wrap32 t.addr), .Return]) ∧
    ((t.opcode = .EBREAK ∨ t.opcode = .C_EBREAK) →
      ∃ pre, (translate_block block ic).body =
        pre ++ [.I32Const (0xC0000000 ||| wrap32 t.addr), .Return]) := by
  constructor
  · intro hop
    refine ⟨block.instructions.foldr (fun i acc => translate_instruction i ++ acc) [], ?_⟩
    simp only [translate_block, hterm]
    rw [add_terminator_return]
    rw [hop]
  · intro hop
    refine ⟨block.instructions.foldr (fun i acc => translate_instruction i ++ acc) [], ?_⟩
    simp only [translate_block, hterm]
    rw [add_terminator_return]
    rcases hop with hop | hop <;> rw [hop]

/-- A one-instruction block holding `ecall` at 0x1000. -/
def c3Block : BasicBlock := ⟨0x1000, 0x1004, [decode_32bit 0x1000 0x00000073], [], false⟩

/-- Witness for C3 on a block ending in `ecall` at 0x1000. -/
theorem c3_ecall_ebreak_return_witness :
    c3Block.terminator = some (decode_32bit 0x1000 0x00000073) ∧
      (decode_32bit 0x1000 0x00000073).opcode = .ECALL ∧
      ∃ pre, (translate_block c3Block []).body =
        pre ++ [.I32Const (0x80000000 ||| wrap32 (decode_32bit 0x1000 0x00000073).addr),
                .Return] :=
  ⟨by decide, by decide,
    (c3_ecall_ebreak_return c3Block [] (decode_32bit 0x1000 0x00000073) (by decide)).1
      (by decide)⟩


/-! ## translate.rs: module assembly (memory sizing) -/

/-- An ELF load segment (`struct Segment` in elf.rs), restricted to the
fields `translate` reads. -/
structure Segment where
  vaddr : Nat
  memsz : Nat
  deriving Repr, DecidableEq

/-- A translated module (`struct WasmModule` in translate.rs); the
`block_to_func` index map is omitted (no embedded consumer reads it). -/
structure WasmModule where
  functions : List WasmFunction
  memory_pages : Nat
  entry : Nat

/-- `translate` from translate.rs: lowers each block, optimizes at
`opt_level >= 2`, and sizes memory from the ELF segments with an 8-page
(512 KiB) floor.  `fuel` bounds the optimizer's fixed-point loop. -/
def translate (blocks : List BasicBlock) (segs : List Segment)
    (opt_level entry fuel : Nat) : Option WasmModule :=
  let max_addr := (segs.map (fun s => wrap64 (s.vaddr + s.memsz))).foldr Nat.max 0
  let memory_pages := wrap32 (wrap64 (max_addr + 0xFFFF) / 0x10000)
  let block_addrs := blocks.map (fun b => b.start_addr)
  let funcs := blocks.map (fun b =>
    translate_block b (if 2 ≤ opt_level then block_addrs else []))
  let ofuncs :=
    if 2 ≤ opt_level then funcs.mapM (optimize_function fuel) else some funcs
  ofuncs.map (fun fs => ⟨fs, Nat.max memory_pages 8, entry⟩)

/-- `translate_jit` from translate.rs: same lowering, always optimized, with
`memory_pages = 0` (JIT modules import memory; pages are set by the host). -/
def translate_jit (blocks : List BasicBlock) (base_addr fuel : Nat) :
    Option WasmModule :=
  let block_addrs := blocks.map (fun b => b.start_addr)
  let funcs := blocks.map (fun b => translate_block b block_addrs)
  (funcs.mapM (optimize_function fuel)).map (fun fs => ⟨fs, 0, base_addr⟩)

/-- The memory import type (`MemoryType` from wasm_encoder as written by
`WasmBuilder::build`): `minimum` and `maximum` in 64 KiB pages. -/
structure MemoryType where
  minimum : Nat
  maximum : Option Nat
  deriving Repr, DecidableEq

/-- The memory import written by `WasmBuilder::build` in wasm_builder.rs:
min = the module's `memory_pages`, max = `memory_pages * 4` in `u32`
arithmetic. -/
def build_memory_import (pages : Nat) : MemoryType :=
  ⟨pages, some (wrap32 (pages * 4))⟩

/-- C10: in AOT mode the translated module's `memory_pages` is at least 8
(512 KiB floor), and the builder declares the imported memory with minimum
equal to `memory_pages` and maximum `memory_pages * 4` (exactly four times
the minimum whenever the `u32` product does not overflow); in JIT mode
`translate_jit` sets `memory_pages` to 0. -/
theorem c10_memory_pages (blocks : List BasicBlock) (segs : List Segment)
    (lvl entry fuel base : Nat) (m mj : WasmModule)
    (hm : translate blocks segs lvl entry fuel = some m)
    (hj : translate_jit blocks base fuel = some mj) :
    8 ≤ m.memory_pages ∧
    (build_memory_import m.memory_pages).minimum = m.memory_pages ∧
    (build_memory_import m.memory_pages).maximum = some (wrap32 (m.memory_pages * 4)) ∧
    (m.memory_pages * 4 < 2 ^ 32 →
      (build_memory_import m.memory_pages).maximum = some (m.memory_pages * 4)) ∧
    mj.memory_pages = 0 := by
  simp only [translate, Option.map_eq_some'] at hm
  obtain ⟨fs, -, hm2⟩ := hm
  simp only [translate_jit, Option.map_eq_some'] at hj
  obtain ⟨fsj, -, hj2⟩ := hj
  refine ⟨?_, rfl, rfl, ?_, ?_⟩
  · rw [← hm2]
    exact Nat.le_max_right _ _
  · intro hlt
    simp only [build_memory_import, wrap32]
    rw [Nat.mod_eq_of_lt (show m.memory_pages * 4 < M32 by simpa [M32] using hlt)]
  · rw [← hj2]

/-- The AOT module expected for a single-`ecall` program with one small
segment. -/
def c10Module : WasmModule :=
  ⟨[⟨"block", 0x1000, [.I32Const 0x80001000, .Return], 4⟩], 8, 0x1000⟩

/-- The JIT module expected for the same program. -/
def c10ModuleJit : WasmModule :=
  ⟨[⟨"block", 0x1000, [.I32Const 0x80001000, .Return], 4⟩], 0, 0x1000⟩

/-- Witness for C10 on a one-block `ecall` program with a 256-byte segment:
the AOT module gets the 8-page floor and the JIT module 0 pages. -/
theorem c10_memory_pages_witness :
    translate [c3Block] [⟨0x10000, 0x100⟩] 2 0x1000 1 = some c10Module ∧
    translate_jit [c3Block] 0x1000 1 = some c10ModuleJit ∧
    (8 ≤ c10Module.memory_pages ∧
      (build_memory_import c10Module.memory_pages).minimum = c10Module.memory_pages ∧
      (build_memory_import c10Module.memory_pages).maximum =
        some (wrap32 (c10Module.memory_pages * 4)) ∧
      (c10Module.memory_pages * 4 < 2 ^ 32 →
        (build_memory_import c10Module.memory_pages).maximum =
          some (c10Module.memory_pages * 4)) ∧
      c10ModuleJit.memory_pages = 0) :=
  ⟨rfl, rfl,
    c10_memory_pages [c3Block] [⟨0x10000, 0x100⟩] 2 0x1000 1 0x1000
      c10Module c10ModuleJit rfl rfl⟩


/-! ## wasm_builder.rs: the dispatch function and its execution -/

/-- The `wasm_encoder::Instruction`s emitted by `build_dispatch_function`
and its helpers (all `If`/`Block`/`Loop` use `BlockType::Empty`).
`I32Const` carries a `u32` bit pattern. -/
inductive EncInst where
  | LocalGet (i : Nat) | LocalSet (i : Nat)
  | I32Const (v : Nat)
  | I32Eq | I32And | I32Sub | I32ShrU | I32DivU
  | If | Block | Loop | End
  | Br (l : Nat) | BrTable (targets : List Nat) (dflt : Nat)
  | Call (f : Nat) | CallIndirect
  | Return
  deriving Repr, DecidableEq

/-- `can_use_dense_table` from wasm_builder.rs. -/
def can_use_dense_table (module : WasmModule) : Bool :=
  if module.functions.length ≤ 1 then true
  else
    match module.functions.map (fun f => f.block_addr) with
    | [] => true
    | a :: rest =>
      let min_addr := rest.foldl Nat.min a
      let max_addr := rest.foldl Nat.max a
      decide ((max_addr - min_addr) / 4 + 1 ≤ module.functions.length * 2)

/-- `compute_addr_alignment` from wasm_builder.rs (GCD of offsets from the
first sorted address, with a floor of 2). -/
def compute_addr_alignment (addrs : List (Nat × Nat)) : Nat :=
  match addrs with
  | [] => 2
  | [_] => 2
  | a :: rest =>
    let g := rest.foldl (fun g p => Nat.gcd g (p.1 - a.1)) 0
    if g = 0 then 2 else g

/-- `u64::is_power_of_two`. -/
def is_power_of_two (n : Nat) : Bool :=
  decide (n ≠ 0) && decide (n &&& (n - 1) = 0)

/-- Helper for `trailing_zeros`: counts factors of two (64 iterations cap). -/
def tzAux : Nat → Nat → Nat
  | 0, _ => 0
  | f + 1, n => if n % 2 = 0 then tzAux f (n / 2) + 1 else 0

/-- `u64::trailing_zeros`. -/
def trailing_zeros (n : Nat) : Nat :=
  if n = 0 then 64 else tzAux 64 n

/-- `emit_br_table_dispatch` from wasm_builder.rs. -/
def emit_br_table_dispatch (sorted : List (Nat × Nat))
    (base alignment table_size n : Nat) : List EncInst :=
  ([.Block] ++ List.replicate n .Block ++ [.Block]) ++
  [.LocalGet 2, .I32Const (wrap32 base), .I32Sub] ++
  (if is_power_of_two alignment && decide (0 < trailing_zeros alignment) then
    [.I32Const (trailing_zeros alignment), .I32ShrU]
  else if 1 < alignment then
    [.I32Const (wrap32 alignment), .I32DivU]
  else []) ++
  [.BrTable ((List.range table_size).map (fun i =>
    match sorted.findIdx? (fun p => p.1 == base + i * alignment) with
    | some c => c + 1
    | none => 0)) 0] ++
  [.End] ++
  [.I32Const (M32 - 1), .LocalSet 2, .Br n] ++
  (sorted.enum.foldr (fun ci acc =>
    [.End, .LocalGet 0, .I32Const (wrap32 ci.2.2), .CallIndirect, .LocalSet 2,
     .Br (n - 1 - ci.1)] ++ acc) []) ++
  [.End]

/-- `emit_if_else_dispatch` from wasm_builder.rs. -/
def emit_if_else_dispatch (sorted : List (Nat × Nat)) : List EncInst :=
  sorted.foldr (fun p acc =>
    [.LocalGet 2, .I32Const (wrap32 p.1), .I32Eq, .If,
     .LocalGet 0, .I32Const (wrap32 p.2), .CallIndirect, .LocalSet 2, .Br 1,
     .End] ++ acc) [] ++
  [.I32Const (M32 - 1), .LocalSet 2]

/-- `emit_sparse_dispatch` from wasm_builder.rs; `sorted` is the
address-sorted `addr_to_table_idx` pair list (`BTreeMap` iteration order). -/
def emit_sparse_dispatch (sorted : List (Nat × Nat)) : List EncInst :=
  let n := sorted.length
  if n = 0 then [.I32Const (M32 - 1), .LocalSet 2]
  else
    let base := (sorted.headD (0, 0)).1
    let maxa := ((sorted.getLast?).getD (0, 0)).1
    let alignment := compute_addr_alignment sorted
    let table_size := if maxa = base then 1 else (maxa - base) / alignment + 1
    if table_size ≤ 65536 then
      emit_br_table_dispatch sorted base alignment table_size n
    else
      emit_if_else_dispatch sorted

/-- The loop head emitted by `build_dispatch_function` before the
per-module dispatch section: initialize `$pc` from the start parameter,
then on each iteration test for halt (`pc = -1`, return 0) and for a
pending syscall (`pc & 0x80000000 ≠ 0`: call import 0 with `(m, pc)`,
assign the result to `pc`, and branch back to the loop). -/
def dispatchHead : List EncInst :=
  [.LocalGet 1, .LocalSet 2, .Loop,
   .LocalGet 2, .I32Const (M32 - 1), .I32Eq, .If, .I32Const 0, .Return, .End,
   .LocalGet 2, .I32Const 0x80000000, .I32And, .If, .LocalGet 0, .LocalGet 2,
   .Call 0, .LocalSet 2, .Br 1, .End]

/-- `build_dispatch_function` from wasm_builder.rs, as its flat instruction
list (locals: 0 = `$m`, 1 = `$start_pc`, 2 = `$pc`). -/
def build_dispatch_function (module : WasmModule) (a2t : List (Nat × Nat)) :
    List EncInst :=
  dispatchHead ++
  ((if module.functions.isEmpty then [.I32Const 0, .Return]
    else if can_use_dense_table module then
      [.LocalGet 0, .LocalGet 2,
       .I32Const (wrap32 ((module.functions.head?.map (fun f => f.block_addr)).getD 0)),
       .I32Sub, .I32Const 2, .I32ShrU, .CallIndirect, .LocalSet 2]
    else emit_sparse_dispatch a2t) ++
  [.Br 0, .End, .I32Const 0, .End])

/-! A small-step interpreter for the flat dispatcher code.  The machine
state is an instruction pointer, the three i32 locals, an operand stack of
`u32` patterns, and a control stack of structured frames.  The imported
syscall handler and the function table are oracles: `sys m pc` is the
syscall import's return value and `tbl i` the value returned by the block
function in table slot `i`.  Every `call` and `call_indirect` is recorded
as an event. -/

/-- An observable action of the dispatcher: a syscall-import call with its
two arguments, or an indirect call through table slot `idx`. -/
inductive DEv where
  | syscall (m pc : Nat)
  | dispatch (idx : Nat)
  deriving Repr, DecidableEq

/-- A control frame: a `block`/`if` (branching to it jumps past its `end`
at the recorded index) or a `loop` (branching to it re-enters the body at
the recorded index). -/
inductive EncFrame where
  | block (endIp : Nat)
  | loop (startIp : Nat)
  deriving Repr, DecidableEq

/-- Dispatcher machine state. -/
structure DState where
  ip : Nat
  locals : List Nat
  stack : List Nat
  frames : List EncFrame
  deriving Repr, DecidableEq

/-- Instruction fetch. -/
def fetch : List EncInst → Nat → Option EncInst
  | [], _ => none
  | i :: _, 0 => some i
  | _ :: l, n + 1 => fetch l n

/-- Scan for the matching `end` of the structure opened just before `ip`;
walks the suffix, tracking nesting depth. -/
def feAux : List EncInst → Nat → Nat → Nat
  | [], ip, _ => ip
  | i :: rest, ip, depth =>
    match i with
    | .Block | .Loop | .If => feAux rest (ip + 1) (depth + 1)
    | .End => if depth = 0 then ip else feAux rest (ip + 1) (depth - 1)
    | _ => feAux rest (ip + 1) depth

/-- Index of the `end` matching the structure whose body starts at `ip`. -/
def findEnd (code : List EncInst) (ip : Nat) : Nat :=
  feAux (code.drop ip) ip 0

/-- Branch resolution: label `k` names the `k`-th enclosing frame; a block
target continues after its `end`, a loop target re-enters its body. -/
def brTarget (frames : List EncFrame) (k : Nat) : Nat × List EncFrame :=
  match fetchFrame frames k with
  | some (.block e) => (e + 1, frames.drop (k + 1))
  | some (.loop s) => (s, frames.drop k)
  | none => (0, [])
where
  fetchFrame : List EncFrame → Nat → Option EncFrame
    | [], _ => none
    | f :: _, 0 => some f
    | _ :: l, n + 1 => fetchFrame l n

/-- Run the dispatcher code for `fuel` steps.  Returns the function result
(`none` if the fuel ran out or execution escaped the code) and the list of
events in order. -/
def drun (code : List EncInst) (sys : Nat → Nat → Nat) (tbl : Nat → Nat) :
    Nat → DState → Option Nat × List DEv
  | 0, _ => (none, [])
  | fuel + 1, st =>
    match fetch code st.ip with
    | none => (none, [])
    | some (.LocalGet i) =>
      drun code sys tbl fuel
        ⟨st.ip + 1, st.locals, st.locals.getD i 0 :: st.stack, st.frames⟩
    | some (.LocalSet i) =>
      drun code sys tbl fuel
        ⟨st.ip + 1, st.locals.set i (st.stack.headD 0), st.stack.tail, st.frames⟩
    | some (.I32Const v) =>
      drun code sys tbl fuel ⟨st.ip + 1, st.locals, v :: st.stack, st.frames⟩
    | some .I32Eq =>
      drun code sys tbl fuel
        ⟨st.ip + 1, st.locals,
         (if st.stack.tail.headD 0 = st.stack.headD 0 then 1 else 0) ::
           st.stack.tail.tail, st.frames⟩
    | some .I32And =>
      drun code sys tbl fuel
        ⟨st.ip + 1, st.locals,
         (st.stack.tail.headD 0 &&& st.stack.headD 0) :: st.stack.tail.tail, st.frames⟩
    | some .I32Sub =>
      drun code sys tbl fuel
        ⟨st.ip + 1, st.locals,
         wrap32 (st.stack.tail.headD 0 + M32 - st.stack.headD 0) :: st.stack.tail.tail,
         st.frames⟩
    | some .I32ShrU =>
      drun code sys tbl fuel
        ⟨st.ip + 1, st.locals,
         (st.stack.tail.headD 0 >>> (st.stack.headD 0 % 32)) :: st.stack.tail.tail,
         st.frames⟩
    | some .I32DivU =>
      drun code sys tbl fuel
        ⟨st.ip + 1, st.locals,
         (st.stack.tail.headD 0 / st.stack.headD 0) :: st.stack.tail.tail, st.frames⟩
    | some .If =>
      if st.stack.headD 0 = 0 then
        drun code sys tbl fuel
          ⟨findEnd code (st.ip + 1) + 1, st.locals, st.stack.tail, st.frames⟩
      else
        drun code sys tbl fuel
          ⟨st.ip + 1, st.locals, st.stack.tail,
           .block (findEnd code (st.ip + 1)) :: st.frames⟩
    | some .Block =>
      drun code sys tbl fuel
        ⟨st.ip + 1, st.locals, st.stack,
         .block (findEnd code (st.ip + 1)) :: st.frames⟩
    | some .Loop =>
      drun code sys tbl fuel
        ⟨st.ip + 1, st.locals, st.stack, .loop (st.ip + 1) :: st.frames⟩
    | some .End =>
      match st.frames with
      | [] => (some (st.stack.headD 0), [])
      | _ :: fs => drun code sys tbl fuel ⟨st.ip + 1, st.locals, st.stack, fs⟩
    | some (.Br k) =>
      drun code sys tbl fuel
        ⟨(brTarget st.frames k).1, st.locals, st.stack, (brTarget st.frames k).2⟩
    | some (.BrTable ts d) =>
      drun code sys tbl fuel
        ⟨(brTarget st.frames (ts.getD (st.stack.headD 0) d)).1, st.locals,
         st.stack.tail, (brTarget st.frames (ts.getD (st.stack.headD 0) d)).2⟩
    | some (.Call _) =>
      let m := st.stack.tail.headD 0
      let pc := st.stack.headD 0
      let r := drun code sys tbl fuel
        ⟨st.ip + 1, st.locals, sys m pc :: st.stack.tail.tail, st.frames⟩
      (r.1, .syscall m pc :: r.2)
    | some .CallIndirect =>
      let idx := st.stack.headD 0
      let r := drun code sys tbl fuel
        ⟨st.ip + 1, st.locals, tbl idx :: st.stack.tail.tail, st.frames⟩
      (r.1, .dispatch idx :: r.2)
    | some .Return => (some (st.stack.headD 0), [])

set_option maxHeartbeats 4000000 in
/-- C2: on every dispatcher the generated code first copies the start pc
into `$pc` and enters the loop; each iteration first tests `pc = -1` and
returns 0 on halt, and otherwise, if `pc` has bit 31 set, calls the
imported syscall callback (import 0) with `(m, pc)`, assigns its return to
`pc`, and branches back to the loop head without dispatching (no event
besides the syscall is recorded and the dispatch section is skipped). -/
theorem c2_dispatch_loop (module : WasmModule) (a2t : List (Nat × Nat))
    (sys : Nat → Nat → Nat) (tbl : Nat → Nat) (fuel m s pc : Nat) :
    (drun (build_dispatch_function module a2t) sys tbl (fuel + 3)
        ⟨0, [m, s, 0], [], []⟩ =
      drun (build_dispatch_function module a2t) sys tbl fuel
        ⟨3, [m, s, s], [], [.loop 3]⟩) ∧
    (pc = 4294967295 →
      drun (build_dispatch_function module a2t) sys tbl (fuel + 6)
        ⟨3, [m, s, pc], [], [.loop 3]⟩ = (some 0, [])) ∧
    (pc ≠ 4294967295 → pc &&& 0x80000000 ≠ 0 →
      drun (build_dispatch_function module a2t) sys tbl (fuel + 13)
          ⟨3, [m, s, pc], [], [.loop 3]⟩ =
        ((drun (build_dispatch_function module a2t) sys tbl fuel
            ⟨3, [m, s, sys m pc], [], [.loop 3]⟩).1,
         .syscall m pc ::
           (drun (build_dispatch_function module a2t) sys tbl fuel
             ⟨3, [m, s, sys m pc], [], [.loop 3]⟩).2)) := by
  have key : ∀ rest : List EncInst,
      (drun (dispatchHead ++ rest) sys tbl (fuel + 3) ⟨0, [m, s, 0], [], []⟩ =
        drun (dispatchHead ++ rest) sys tbl fuel ⟨3, [m, s, s], [], [.loop 3]⟩) ∧
      (pc = 4294967295 →
        drun (dispatchHead ++ rest) sys tbl (fuel + 6)
          ⟨3, [m, s, pc], [], [.loop 3]⟩ = (some 0, [])) ∧
      (pc ≠ 4294967295 → pc &&& 0x80000000 ≠ 0 →
        drun (dispatchHead ++ rest) sys tbl (fuel + 13)
            ⟨3, [m, s, pc], [], [.loop 3]⟩ =
          ((drun (dispatchHead ++ rest) sys tbl fuel
              ⟨3, [m, s, sys m pc], [], [.loop 3]⟩).1,
           .syscall m pc ::
             (drun (dispatchHead ++ rest) sys tbl fuel
               ⟨3, [m, s, sys m pc], [], [.loop 3]⟩).2)) := by
    intro rest
    refine ⟨?_, ?_, ?_⟩
    · simp [drun, fetch, dispatchHead, List.cons_append, M32]
    · intro hpc
      subst hpc
      simp [drun, fetch, dispatchHead, findEnd, feAux, List.cons_append, M32]
    · intro hne hbit
      simp [drun, fetch, dispatchHead, findEnd, feAux, brTarget, brTarget.fetchFrame,
        List.cons_append, M32, hne, hbit]
  have hb : build_dispatch_function module a2t =
      dispatchHead ++
        ((if module.functions.isEmpty then [.I32Const 0, .Return]
          else if can_use_dense_table module then
            [.LocalGet 0, .LocalGet 2,
             .I32Const (wrap32 ((module.functions.head?.map
               (fun f => f.block_addr)).getD 0)),
             .I32Sub, .I32Const 2, .I32ShrU, .CallIndirect, .LocalSet 2]
          else emit_sparse_dispatch a2t) ++
        [.Br 0, .End, .I32Const 0, .End]) := rfl
  rw [hb]
  exact key _

/-- Witness for C2 at a concrete dispatcher: for a module with no blocks,
pc = -1 halts with 0 immediately, and pc = 0x80000001 performs exactly one
syscall call, writes the callback's return into `$pc`, and loops (here the
callback returns -1, so the next iteration halts). -/
theorem c2_dispatch_loop_witness :
    ((4294967295 : Nat) = 4294967295 ∧
      drun (build_dispatch_function ⟨[], 8, 0⟩ []) (fun _ _ => 4294967295)
        (fun _ => 0) 6 ⟨3, [7, 0, 4294967295], [], [.loop 3]⟩ = (some 0, [])) ∧
    ((0x80000001 : Nat) ≠ 4294967295 ∧ (0x80000001 : Nat) &&& 0x80000000 ≠ 0 ∧
      drun (build_dispatch_function ⟨[], 8, 0⟩ []) (fun _ _ => 4294967295)
          (fun _ => 0) 19 ⟨3, [7, 0, 0x80000001], [], [.loop 3]⟩ =
        ((drun (build_dispatch_function ⟨[], 8, 0⟩ []) (fun _ _ => 4294967295)
            (fun _ => 0) 6 ⟨3, [7, 0, 4294967295], [], [.loop 3]⟩).1,
         .syscall 7 0x80000001 ::
           (drun (build_dispatch_function ⟨[], 8, 0⟩ []) (fun _ _ => 4294967295)
             (fun _ => 0) 6 ⟨3, [7, 0, 4294967295], [], [.loop 3]⟩).2)) :=
  ⟨⟨rfl, (c2_dispatch_loop ⟨[], 8, 0⟩ [] (fun _ _ => 4294967295) (fun _ => 0)
      0 7 0 4294967295).2.1 rfl⟩,
   ⟨by decide, by decide,
    (c2_dispatch_loop ⟨[], 8, 0⟩ [] (fun _ _ => 4294967295) (fun _ => 0)
      6 7 0 0x80000001).2.2 (by decide) (by decide)⟩⟩

/-- The two-block module whose addresses have stride 2: blocks at 0x1000
and 0x1002. -/
def c5Module : WasmModule :=
  ⟨[⟨"b0", 0x1000, [], 4⟩, ⟨"b1", 0x1002, [], 4⟩], 8, 0x1000⟩

/-- The `addr_to_table_idx` map the builder derives for `c5Module`. -/
def c5A2t : List (Nat × Nat) := [(0x1000, 0), (0x1002, 1)]

/-- C5 counterexample: for the stride-2 module `c5Module` the generator
selects the dense path, the table slot of block 0x1002 is 1, yet running
the dispatcher with pc = 0x1002 performs `call_indirect` on slot
`(0x1002 - 0x1000) >> 2 = 0` — the block at 0x1000 — before halting: the
dense index divides by 4 regardless of the actual stride. -/
theorem c5_dense_misdispatch :
    can_use_dense_table c5Module = true ∧
    mapGet c5A2t 0x1002 = some 1 ∧
    drun (build_dispatch_function c5Module c5A2t) (fun _ _ => 0)
        (fun _ => 4294967295) 30 ⟨0, [7, 0x1002, 0], [], []⟩ =
      (some 0, [.dispatch 0]) := by
  refine ⟨by decide, by decide, by decide⟩


end Friscy
